import Mathlib

/-!
Verification development for the kiteforecast forecast-aggregation engine.

The source (`src/api/openmeteo.ts` together with its tide module) is shallowly
embedded below.  JavaScript numbers are idealized as exact rationals wherever
only field operations and comparisons occur, and as real numbers wherever
transcendental functions (`Math.sin`, `Math.cos`, `Math.atan2`, `Math.sqrt`)
appear.  Stateful code (module-level caches, the in-flight marker, the ambient
date) is embedded by passing the state explicitly.
-/

attribute [local semireducible] Rat.add Rat.mul Rat.sub Rat.inv Rat.ofScientific

open Real

namespace KiteForecast

/-- Embedding of JavaScript `Math.round` on reals: round half toward positive infinity. -/
noncomputable def jsRound (x : ℝ) : ℤ := ⌊x + 1/2⌋

/-- Embedding of JavaScript `Math.round` on exact rational values. -/
def jsRoundQ (q : ℚ) : ℤ := ⌊q + 1/2⌋

/-- Embedding of `+x.toFixed(2)`: round to two decimals, ties toward the larger value. -/
noncomputable def toFixed2 (x : ℝ) : ℚ := ((⌊x * 100 + 1/2⌋ : ℤ) : ℚ) / 100

/-- Embedding of `+x.toFixed(1)` on exact rational values. -/
def toFixed1Q (q : ℚ) : ℚ := ((⌊q * 10 + 1/2⌋ : ℤ) : ℚ) / 10

/-- Truncation toward zero, as the JavaScript remainder operator uses. -/
def ratTrunc (q : ℚ) : ℤ := if 0 ≤ q then ⌊q⌋ else ⌈q⌉

/-- Embedding of the JavaScript remainder operator `%` (sign follows the dividend). -/
def jsMod (a b : ℚ) : ℚ := a - b * (ratTrunc (a / b) : ℚ)

/-- The `MODEL_WEIGHT` table from `openmeteo.ts`. -/
def MODEL_WEIGHT (m : String) : Option ℚ :=
  if m = "ECMWF" then some (1.3 : ℚ)
  else if m = "GFS" then some (1.0 : ℚ)
  else if m = "ICON" then some (1.1 : ℚ)
  else if m = "MF" then some (0.85 : ℚ)
  else if m = "GEM" then some (0.8 : ℚ)
  else none

/-- `MODEL_WEIGHT[m] ?? 1.0`. -/
def weightOf (m : String) : ℚ := (MODEL_WEIGHT m).getD 1

/-- `BASE_MODELS` from `types.ts`. -/
def BASE_MODELS : List String := ["GFS", "ECMWF", "ICON", "MF", "GEM"]

/-- `Math.max(...values)` for a non-empty list. -/
def listMax (l : List ℚ) : ℚ := l.foldl max l.headI

/-- `Math.min(...values)` for a non-empty list. -/
def listMin (l : List ℚ) : ℚ := l.foldl min l.headI

/-- The `sumV` accumulation of `blendValues`: `Σ values[i] * weights[i]` over `i < n`. -/
def sumV (values weights : List ℚ) : ℚ :=
  (values.zip weights).foldl (fun s p => s + p.1 * p.2) 0

/-- The `sumW` accumulation of `blendValues`: `Σ weights[i]` over `i < values.length`. -/
def sumW (values weights : List ℚ) : ℚ :=
  (values.zip weights).foldl (fun s p => s + p.2) 0

/-- The initial weighted mean `sumV / sumW` of `blendValues`. -/
def wMean (values weights : List ℚ) : ℚ := sumV values weights / sumW values weights

/-- The outlier scan of `blendValues`: starting from `maxDist = 0, maxIdx = 0`, take the
index of the first value at strictly maximal absolute distance from `m`. -/
def maxDevIdx (values : List ℚ) (m : ℚ) : ℕ :=
  (values.foldl
    (fun acc v =>
      if |v - m| > acc.1 then (|v - m|, acc.2.2, acc.2.2 + 1)
      else (acc.1, acc.2.1, acc.2.2 + 1))
    (((0 : ℚ), (0 : ℕ), (0 : ℕ)))).2.1

/-- `useIdx` of `blendValues`: all indices, minus the outlier when `trim` and `n ≥ 4`. -/
def useIdx (values weights : List ℚ) (trim : Bool) : List ℕ :=
  if trim = true ∧ 4 ≤ values.length then
    (List.range values.length).filter (fun i => i ≠ maxDevIdx values (wMean values weights))
  else List.range values.length

/-- Final-mean numerator of `blendValues`: `Σ_{i ∈ idx} values[i] * weights[i]`. -/
def idxSumV (values weights : List ℚ) (idx : List ℕ) : ℚ :=
  idx.foldl (fun s i => s + values.getD i 0 * weights.getD i 0) 0

/-- Final-mean denominator of `blendValues`: `Σ_{i ∈ idx} weights[i]`. -/
def idxSumW (weights : List ℚ) (idx : List ℕ) : ℚ :=
  idx.foldl (fun s i => s + weights.getD i 0) 0

/-- The final (possibly trimmed) weighted mean of `blendValues` for `n ≥ 2`. -/
def blendMean (values : List ℚ) (modelNames : List String) (trim : Bool) : ℚ :=
  let weights := modelNames.map weightOf
  let idx := useIdx values weights trim
  idxSumV values weights idx / idxSumW weights idx

/-- The `spread` of `blendValues`: full range across all values, before trimming. -/
def blendSpread (values : List ℚ) : ℚ := listMax values - listMin values

/-- The variance computed by `blendValues`: squared deviations of all `n` values from the
final (post-trim) mean, divided by the full count `n`. -/
def blendVariance (values : List ℚ) (modelNames : List String) (trim : Bool) : ℚ :=
  (values.foldl (fun s v => s + (v - blendMean values modelNames trim) ^ 2) 0)
    / (values.length : ℚ)

/-- The confidence computed by `blendValues` for `n ≥ 2`:
`std = sqrt(variance)`, `cv = mean > 0 ? std / mean : std`, clamped `1 - cv * 2`. -/
noncomputable def blendConfidence (values : List ℚ) (modelNames : List String) (trim : Bool) :
    ℝ :=
  let mean := blendMean values modelNames trim
  let std : ℝ := Real.sqrt ((blendVariance values modelNames trim : ℚ) : ℝ)
  let cv : ℝ := if 0 < mean then std / ((mean : ℚ) : ℝ) else std
  max 0 (min 1 (1 - cv * 2))

/-- Result record of `blendValues`. -/
structure BlendResult where
  mean : ℚ
  spread : ℚ
  confidence : ℝ

/-- `blendValues(values, modelNames, trim)` from `openmeteo.ts`. -/
noncomputable def blendValues (values : List ℚ) (modelNames : List String) (trim : Bool) :
    BlendResult :=
  if values.length = 0 then ⟨0, 0, 0⟩
  else if values.length = 1 then ⟨values.headI, 0, 1/2⟩
  else
    ⟨blendMean values modelNames trim, blendSpread values,
      blendConfidence values modelNames trim⟩

/-- `agreementLabel(confidence)` from `openmeteo.ts`. -/
noncomputable def agreementLabel (confidence : ℝ) : String :=
  if (0.75 : ℝ) ≤ confidence then "high"
  else if (0.45 : ℝ) ≤ confidence then "moderate"
  else "low"

/-- Embedding of JavaScript `Math.atan2 y x` as the argument of the complex number `x + y i`. -/
noncomputable def jsAtan2 (y x : ℝ) : ℝ := Complex.arg (Complex.ofReal x + Complex.ofReal y * Complex.I)

/-- `circularMeanDeg(angles, weights)` from `openmeteo.ts`: weighted unit-vector sum,
`atan2`, shift into non-negative degrees, then `Math.round`. -/
noncomputable def circularMeanDeg (angles weights : List ℚ) : ℤ :=
  let pairs := angles.zip weights
  let sSin : ℝ := pairs.foldl (fun s p => s + Real.sin ((p.1 : ℝ) * π / 180) * (p.2 : ℝ)) 0
  let sCos : ℝ := pairs.foldl (fun s p => s + Real.cos ((p.1 : ℝ) * π / 180) * (p.2 : ℝ)) 0
  let sW : ℝ := pairs.foldl (fun s p => s + (p.2 : ℝ)) 0
  let mean := jsAtan2 (sSin / sW) (sCos / sW) * 180 / π
  jsRound (if mean < 0 then mean + 360 else mean)

/-- `circularConcentration(angles)` from `openmeteo.ts`: mean resultant length. -/
noncomputable def circularConcentration (angles : List ℚ) : ℝ :=
  if angles.length ≤ 1 then 1
  else
    let sSin : ℝ := angles.foldl (fun s a => s + Real.sin ((a : ℝ) * π / 180)) 0
    let sCos : ℝ := angles.foldl (fun s a => s + Real.cos ((a : ℝ) * π / 180)) 0
    Real.sqrt (sSin * sSin + sCos * sCos) / (angles.length : ℝ)

/-- `DayForecast` from `types.ts` (optional blend fields as `Option`). -/
structure DayForecast where
  day : String
  date : String
  wind : ℚ
  gust : ℚ
  temp : ℚ
  rain : ℚ
  cloud : ℚ
  tideHigh : ℚ
  tideLow : ℚ
  tideRange : ℚ
  dirDeg : ℚ
  spread : Option ℚ
  confidence : Option ℚ
  modelAgreement : Option String

instance : Inhabited DayForecast :=
  ⟨⟨"", "", 0, 0, 0, 0, 0, 0, 0, 0, 0, none, none, none⟩⟩

/-- `HourForecast` from `types.ts` (optional blend fields as `Option`). -/
structure HourForecast where
  hour : String
  wind : ℚ
  gust : ℚ
  temp : ℚ
  rain : ℚ
  dirDeg : ℚ
  tide : ℚ
  spread : Option ℚ
  confidence : Option ℚ

instance : Inhabited HourForecast := ⟨⟨"", 0, 0, 0, 0, 0, 0, none, none⟩⟩

/-- The per-index mapping of the daily `BLEND` path of `fetchDailyForecast`
(the body of `succeeded[0].data.map((d, i) => ...)`). -/
noncomputable def blendDailyPoints (succeeded : List (String × List DayForecast)) :
    List DayForecast :=
  let modelNames := succeeded.map Prod.fst
  let weights := modelNames.map weightOf
  (succeeded.headI.2).mapIdx fun i d =>
    let winds := succeeded.map fun s => ((s.2[i]?).map DayForecast.wind).getD 0
    let gusts := succeeded.map fun s => ((s.2[i]?).map DayForecast.gust).getD 0
    let temps := succeeded.map fun s => ((s.2[i]?).map DayForecast.temp).getD 0
    let rains := succeeded.map fun s => ((s.2[i]?).map DayForecast.rain).getD 0
    let dirs := succeeded.map fun s => ((s.2[i]?).map DayForecast.dirDeg).getD 0
    let windBlend := blendValues winds modelNames true
    let gustBlend := blendValues gusts modelNames true
    let tempBlend := blendValues temps modelNames false
    let rainBlend := blendValues rains modelNames false
    let dirBlend := circularMeanDeg dirs weights
    let dirConf := circularConcentration dirs
    let overallConf := windBlend.confidence * (0.6 : ℝ) + dirConf * (0.4 : ℝ)
    { d with
      wind := (jsRoundQ windBlend.mean : ℚ)
      gust := (jsRoundQ gustBlend.mean : ℚ)
      temp := (jsRoundQ tempBlend.mean : ℚ)
      rain := ((jsRoundQ (rainBlend.mean * 10) : ℤ) : ℚ) / 10
      dirDeg := (dirBlend : ℚ)
      spread := some windBlend.spread
      confidence := some (((jsRound (overallConf * 100) : ℤ) : ℚ) / 100)
      modelAgreement := some (agreementLabel overallConf) }

/-- The per-index mapping of the hourly `BLEND` path of `fetchHourlyForecast`. -/
noncomputable def blendHourlyPoints (succeeded : List (String × List HourForecast)) :
    List HourForecast :=
  let modelNames := succeeded.map Prod.fst
  let weights := modelNames.map weightOf
  (succeeded.headI.2).mapIdx fun i h =>
    let winds := succeeded.map fun s => ((s.2[i]?).map HourForecast.wind).getD 0
    let gusts := succeeded.map fun s => ((s.2[i]?).map HourForecast.gust).getD 0
    let temps := succeeded.map fun s => ((s.2[i]?).map HourForecast.temp).getD 0
    let rains := succeeded.map fun s => ((s.2[i]?).map HourForecast.rain).getD 0
    let dirs := succeeded.map fun s => ((s.2[i]?).map HourForecast.dirDeg).getD 0
    let windBlend := blendValues winds modelNames true
    let gustBlend := blendValues gusts modelNames true
    let tempBlend := blendValues temps modelNames false
    let rainBlend := blendValues rains modelNames false
    let dirBlend := circularMeanDeg dirs weights
    let dirConf := circularConcentration dirs
    let overallConf := windBlend.confidence * (0.6 : ℝ) + dirConf * (0.4 : ℝ)
    { h with
      wind := (jsRoundQ windBlend.mean : ℚ)
      gust := (jsRoundQ gustBlend.mean : ℚ)
      temp := ((jsRoundQ (tempBlend.mean * 10) : ℤ) : ℚ) / 10
      rain := ((jsRoundQ (rainBlend.mean * 10) : ℤ) : ℚ) / 10
      dirDeg := (dirBlend : ℚ)
      tide := ((succeeded.headI.2[i]?).map HourForecast.tide).getD h.tide
      spread := some windBlend.spread
      confidence := some (((jsRound (overallConf * 100) : ℤ) : ℚ) / 100) }

/-- The `succeeded` list of a `BLEND` fetch: base models paired with the settled results
of their concurrent fetches, keeping only the fulfilled ones. -/
def succeededOf {α : Type} (results : List (Option α)) : List (String × α) :=
  (BASE_MODELS.zip results).filterMap fun mr => mr.2.map fun d => (mr.1, d)

/-- The `BLEND` branch of `fetchDailyForecast`, with the settled per-model results as
input: throws `All models failed` when no base model succeeded, otherwise blends. -/
noncomputable def fetchDailyForecastBlend (results : List (Option (List DayForecast))) :
    Except String (List DayForecast) :=
  let succeeded := succeededOf results
  if succeeded.isEmpty then .error "All models failed"
  else .ok (blendDailyPoints succeeded)

/-- The `BLEND` branch of `fetchHourlyForecast`, with the settled per-model results as
input. -/
noncomputable def fetchHourlyForecastBlend (results : List (Option (List HourForecast))) :
    Except String (List HourForecast) :=
  let succeeded := succeededOf results
  if succeeded.isEmpty then .error "All models failed"
  else .ok (blendHourlyPoints succeeded)

/-! ### Tide module -/

/-- Tide extreme type. -/
inductive TideType where
  | high
  | low
deriving DecidableEq, Repr

/-- `CachedExtreme` from the tide module. -/
structure CachedExtreme where
  absHour : ℚ
  level : ℚ
  type : TideType
deriving DecidableEq, Repr

instance : Inhabited CachedExtreme := ⟨⟨0, 0, TideType.high⟩⟩

/-- An hourly sea-level sample (`{absHour, level}`). -/
structure SeaLevel where
  absHour : ℚ
  level : ℚ
deriving DecidableEq, Repr

instance : Inhabited SeaLevel := ⟨⟨0, 0⟩⟩

/-- `TideCache` from the tide module. -/
structure TideCache where
  date : String
  lat : ℚ
  lng : ℚ
  seaLevels : List SeaLevel
  extremes : List CachedExtreme
deriving DecidableEq, Repr

/-- `gridKey(lat, lng)`: snap to the 0.3° grid; the two `toFixed(1)` components of the
cache key string. -/
def gridKey (lat lng : ℚ) : ℚ × ℚ :=
  (toFixed1Q ((jsRoundQ (lat / 0.3) : ℤ) * (0.3 : ℚ)),
   toFixed1Q ((jsRoundQ (lng / 0.3) : ℤ) * (0.3 : ℚ)))

/-- `findSeed(lat, lng)`: first seed within 0.2° of both coordinates, restamped to today. -/
def findSeed (seeds : List TideCache) (today : String) (lat lng : ℚ) : Option TideCache :=
  (seeds.find? fun s => decide (|s.lat - lat| < (0.2 : ℚ) ∧ |s.lng - lng| < (0.2 : ℚ))).map
    fun s => { s with date := today }

/-- `findSeedByLat(lat)`: first seed within 0.2° of the latitude, restamped to today. -/
def findSeedByLat (seeds : List TideCache) (today : String) (lat : ℚ) : Option TideCache :=
  (seeds.find? fun s => decide (|s.lat - lat| < (0.2 : ℚ))).map fun s => { s with date := today }

/-- `cacheCovers(lat, lng)`: memory cache present, dated today, within 0.3°. -/
def cacheCovers (memCache : Option TideCache) (today : String) (lat lng : ℚ) : Bool :=
  match memCache with
  | none => false
  | some c =>
    if c.date ≠ today then false
    else decide (|c.lat - lat| < (0.3 : ℚ) ∧ |c.lng - lng| < (0.3 : ℚ))

/-- `loadCache(lat, lng)`: durable record under this grid key, discarded unless dated
today (the stored JSON is embedded as an environment map from grid keys to records). -/
def loadCache (storage : ℚ × ℚ → Option TideCache) (today : String) (lat lng : ℚ) :
    Option TideCache :=
  match storage (gridKey lat lng) with
  | none => none
  | some c => if c.date ≠ today then none else some c

/-- `ensureCache(lat)`: the lazy synchronous cache init used by `tideAt`/`tidePeaks`.
Returns the memory cache whenever it is within 0.3° of the latitude (no date check),
else falls back to seed data. -/
def ensureCache (memCache : Option TideCache) (seeds : List TideCache) (today : String)
    (lat : ℚ) : Option TideCache :=
  match memCache with
  | some c => if |c.lat - lat| < (0.3 : ℚ) then some c else findSeedByLat seeds today lat
  | none => findSeedByLat seeds today lat

/-- Environment of a `fetchTideData` call: durable storage, seed table, today's date. -/
structure TideFetchEnv where
  storage : ℚ × ℚ → Option TideCache
  seeds : List TideCache
  today : String

/-- Module-level mutable state of the tide module relevant to `fetchTideData`. -/
structure TideFetchState where
  memCache : Option TideCache
  apiKey : String
  inflight : Option ℕ
  inflightGrid : Option (ℚ × ℚ)

/-- How a `fetchTideData` call resolves: synchronously with a boolean, by attaching to
the pending promise recorded in the in-flight marker, or by issuing a new network
request (a fresh promise). -/
inductive TideFetchAction where
  | resolved (hasData : Bool)
  | joinInflight (p : ℕ)
  | startFetch (p : ℕ)
deriving DecidableEq, Repr

/-- `memCache!.seaLevels.length > 0`. -/
def hasLevels (c : Option TideCache) : Bool :=
  match c with
  | none => false
  | some c => decide (0 < c.seaLevels.length)

/-- The synchronous prefix of `fetchTideData(lat, lng)`: the cache/seed/key/in-flight
resolution chain, up to the point where the call either resolves or registers a new
fetch in the in-flight marker.  `fresh` is the identity of the promise a new fetch
would create. -/
def fetchTideDataStep (env : TideFetchEnv) (st : TideFetchState) (lat lng : ℚ) (fresh : ℕ) :
    TideFetchAction × TideFetchState :=
  if cacheCovers st.memCache env.today lat lng then
    (.resolved (hasLevels st.memCache), st)
  else
    match loadCache env.storage env.today lat lng with
    | some c => (.resolved (0 < c.seaLevels.length), { st with memCache := some c })
    | none =>
      match findSeed env.seeds env.today lat lng with
      | some s => (.resolved true, { st with memCache := some s })
      | none =>
        if st.apiKey = "" then (.resolved false, st)
        else
          match st.inflight with
          | some p =>
            if st.inflightGrid = some (gridKey lat lng) then (.joinInflight p, st)
            else
              (.startFetch fresh,
                { st with inflight := some fresh, inflightGrid := some (gridKey lat lng) })
          | none =>
            (.startFetch fresh,
              { st with inflight := some fresh, inflightGrid := some (gridKey lat lng) })

/-- The `finally` clause of `doFetch`: clear the in-flight marker. -/
def fetchTideDataFinally (st : TideFetchState) : TideFetchState :=
  { st with inflight := none, inflightGrid := none }

/-- The bracketing-extremes scan of `interpolateFromExtremes`: the first consecutive
pair `(before, after)` with `before.absHour ≤ h ≤ after.absHour`, if any. -/
def findBracket : List CachedExtreme → ℚ → Option (CachedExtreme × CachedExtreme)
  | a :: b :: rest, h =>
    if a.absHour ≤ h ∧ h ≤ b.absHour then some (a, b) else findBracket (b :: rest) h
  | _, _ => none

/-- One loop iteration of `interpolateFromExtremes`: the sea level pushed for hour `h`. -/
noncomputable def interpOne (extremes : List CachedExtreme) (h : ℚ) : SeaLevel :=
  let bracket := (findBracket extremes h).getD (extremes.headI, extremes.getLastD default)
  let before := bracket.1
  let after := bracket.2
  let span := after.absHour - before.absHour
  if span ≤ 0 then ⟨h, before.level⟩
  else
    let t : ℚ := (h - before.absHour) / span
    ⟨h, toFixed2 ((before.level : ℝ) +
      ((after.level : ℚ) - before.level) * ((1 - Real.cos ((t : ℝ) * π)) / 2))⟩

/-- `interpolateFromExtremes(extremes)` from the tide module. -/
noncomputable def interpolateFromExtremes (extremes : List CachedExtreme) : List SeaLevel :=
  if extremes.length < 2 then []
  else (List.range (7 * 24)).map fun (h : ℕ) => interpOne extremes (h : ℚ)

/-- `LUNAR_SHIFT_RAD` from the tide module. -/
noncomputable def LUNAR_SHIFT_RAD : ℝ := (50.47 : ℝ) / (24 * 60) * (2 * π)

/-- `tideRaw(dayOffset, hour, lat)` from the tide module.  The source additionally reads
the ambient current date through `getDayOfYear()`; that read is made explicit as the
`dayOfYear` argument. -/
noncomputable def tideRaw (dayOffset hour lat : ℚ) (dayOfYear : ℤ) : ℝ :=
  let locPhase : ℝ := ((jsMod (lat * (7.3 : ℚ) + (41.7 : ℚ)) 360 : ℚ) : ℝ) * π / 180
  let lunarPhase : ℝ := (dayOffset : ℝ) * LUNAR_SHIFT_RAD + locPhase
  let doy : ℝ := (dayOfYear : ℝ) + (dayOffset : ℝ)
  let springNeap : ℝ := 0.5 + 0.5 * Real.cos (doy / (14.76 : ℝ) * (2 * π))
  let mainAmp : ℝ := 1.2 + 0.8 * springNeap
  let diurnalAmp : ℝ := mainAmp * (0.18 : ℝ)
  let MSL : ℝ := (2.1 : ℝ)
  let t : ℝ := (hour : ℝ) / (12.42 : ℝ) * (2 * π) + lunarPhase
  let m2 : ℝ := mainAmp * Real.cos t
  let k1 : ℝ := diurnalAmp * Real.cos ((hour : ℝ) / 24 * (2 * π) + lunarPhase * (0.52 : ℝ) + (0.8 : ℝ))
  let m4 : ℝ := mainAmp * (0.06 : ℝ) * Real.cos (2 * t + (0.4 : ℝ))
  MSL + m2 + k1 + m4

/-- The nearest-sample scan of `tideAt`: closest hourly sample to `target` and its
distance (first sample wins ties). -/
def nearestLevel (ls : List SeaLevel) (target : ℚ) : SeaLevel × ℚ :=
  ls.foldl
    (fun acc sl => if |sl.absHour - target| < acc.2 then (sl, |sl.absHour - target|) else acc)
    (ls.headI, |ls.headI.absHour - target|)

/-- `tideAt(dayOffset, hour, lat)` from the tide module, with the module state
(`memCache`, seed table), today's date, and the ambient day-of-year made explicit. -/
noncomputable def tideAt (memCache : Option TideCache) (seeds : List TideCache)
    (today : String) (dayOffset hour lat : ℚ) (dayOfYear : ℤ) : ℚ :=
  match ensureCache memCache seeds today lat with
  | some cache =>
    if 0 < cache.seaLevels.length then
      let target := dayOffset * 24 + hour
      let best := nearestLevel cache.seaLevels target
      if best.2 ≤ (1.5 : ℚ) then best.1.level
      else toFixed2 (tideRaw dayOffset hour lat dayOfYear)
    else toFixed2 (tideRaw dayOffset hour lat dayOfYear)
  | none => toFixed2 (tideRaw dayOffset hour lat dayOfYear)

/-- Modelled from the spec for comparison with the code (claim C2): the population
variance of only the post-trim values about the post-trim weighted mean. -/
def specVarianceC2 (values : List ℚ) (modelNames : List String) (trim : Bool) : ℚ :=
  let post := (useIdx values (modelNames.map weightOf) trim).map fun i => values.getD i 0
  (post.foldl (fun s v => s + (v - blendMean values modelNames trim) ^ 2) 0) /
    (post.length : ℚ)

/-- Modelled from the spec for comparison with the code (claim C2):
`clamp(1 − 2·CV, 0, 1)` with `CV` the population standard deviation of the post-trim
values divided by the post-trim mean. -/
noncomputable def specConfidenceC2 (values : List ℚ) (modelNames : List String) (trim : Bool) :
    ℝ :=
  let mean := blendMean values modelNames trim
  let cv : ℝ := Real.sqrt ((specVarianceC2 values modelNames trim : ℚ) : ℝ) / ((mean : ℚ) : ℝ)
  max 0 (min 1 (1 - cv * 2))

/-- A tide-fetch environment with empty storage and no seeds. -/
def c7Env : TideFetchEnv := ⟨fun _ => none, [], "2026-10-11"⟩

/-- Initial tide module state with an API key configured and nothing cached. -/
def c7St0 : TideFetchState := ⟨none, "key", none, none⟩

/-- Tide module state in which promise 1 for the grid cell of `(0, 0)` is in flight. -/
def c7StIn : TideFetchState := ⟨none, "key", some 1, some (gridKey 0 0)⟩

/-- The spec scenario extremes: a low of 1.0 m at absolute hour 2 and a high of 3.0 m
at absolute hour 8. -/
def c4Extremes : List CachedExtreme := [⟨2, 1, TideType.low⟩, ⟨8, 3, TideType.high⟩]

/-- Extremes whose interpolated value needs more than two decimals. -/
def c4Rounding : List CachedExtreme := [⟨0, 0, TideType.low⟩, ⟨3, 1/10, TideType.high⟩]

/-- A tide cache record dated in the past, with one hourly sample at level 100. -/
def c8Stale : TideCache := ⟨"2020-01-01", 0, 0, [⟨0, 100⟩], []⟩

/-- A sample daily forecast point. -/
def c3DayPt : DayForecast :=
  ⟨"Mon", "2026-10-12", 10, 15, 20, 0, 3, 0, 0, 0, 90, none, none, none⟩

/-- A sample hourly forecast point. -/
def c3HourPt : HourForecast := ⟨"09:00", 10, 15, 20, 0, 90, (1.2 : ℚ), none, none⟩

/-! ### Helper lemmas -/

/-- Invariant of the `maxDist`/`maxIdx` scan in `blendValues`. -/
lemma maxDev_foldl_spec (m : ℚ) (l : List ℚ) :
    ∀ (d : ℚ) (j k : ℕ), 0 ≤ d →
      (l.foldl
        (fun acc v =>
          if |v - m| > acc.1 then (|v - m|, acc.2.2, acc.2.2 + 1)
          else (acc.1, acc.2.1, acc.2.2 + 1)) ((d, j, k) : ℚ × ℕ × ℕ)).2.2 = k + l.length ∧
      (((l.foldl
        (fun acc v =>
          if |v - m| > acc.1 then (|v - m|, acc.2.2, acc.2.2 + 1)
          else (acc.1, acc.2.1, acc.2.2 + 1)) ((d, j, k) : ℚ × ℕ × ℕ)).1 = d ∧
        (l.foldl
        (fun acc v =>
          if |v - m| > acc.1 then (|v - m|, acc.2.2, acc.2.2 + 1)
          else (acc.1, acc.2.1, acc.2.2 + 1)) ((d, j, k) : ℚ × ℕ × ℕ)).2.1 = j) ∨
        ∃ i, i < l.length ∧
          (l.foldl
            (fun acc v =>
              if |v - m| > acc.1 then (|v - m|, acc.2.2, acc.2.2 + 1)
              else (acc.1, acc.2.1, acc.2.2 + 1)) ((d, j, k) : ℚ × ℕ × ℕ)).2.1 = k + i ∧
          (l.foldl
            (fun acc v =>
              if |v - m| > acc.1 then (|v - m|, acc.2.2, acc.2.2 + 1)
              else (acc.1, acc.2.1, acc.2.2 + 1)) ((d, j, k) : ℚ × ℕ × ℕ)).1 = |l.getD i 0 - m|) ∧
      d ≤ (l.foldl
        (fun acc v =>
          if |v - m| > acc.1 then (|v - m|, acc.2.2, acc.2.2 + 1)
          else (acc.1, acc.2.1, acc.2.2 + 1)) ((d, j, k) : ℚ × ℕ × ℕ)).1 ∧
      ∀ i, i < l.length → |l.getD i 0 - m| ≤
        (l.foldl
          (fun acc v =>
            if |v - m| > acc.1 then (|v - m|, acc.2.2, acc.2.2 + 1)
            else (acc.1, acc.2.1, acc.2.2 + 1)) ((d, j, k) : ℚ × ℕ × ℕ)).1 := by
  induction l with
  | nil =>
    intro d j k hd
    refine ⟨rfl, Or.inl ⟨rfl, rfl⟩, le_refl _, ?_⟩
    intro i hi
    simp at hi
  | cons v l ih =>
    intro d j k hd
    simp only [List.foldl_cons, List.length_cons]
    by_cases hc : |v - m| > d
    · rw [if_pos hc]
      obtain ⟨hcnt, hdisj, hle, hall⟩ := ih (|v - m|) k (k + 1) (abs_nonneg _)
      refine ⟨by omega, ?_, le_trans (le_of_lt hc) hle, ?_⟩
      · rcases hdisj with ⟨h1, h2⟩ | ⟨i, hi, h1, h2⟩
        · exact Or.inr ⟨0, by omega, by omega, by rw [h1]; simp⟩
        · exact Or.inr ⟨i + 1, by omega, by omega, by rw [h2]; simp⟩
      · intro i hi
        cases i with
        | zero => simpa using hle
        | succ i => exact (by simpa using hall i (by omega))
    · rw [if_neg hc]
      obtain ⟨hcnt, hdisj, hle, hall⟩ := ih d j (k + 1) hd
      refine ⟨by omega, ?_, hle, ?_⟩
      · rcases hdisj with ⟨h1, h2⟩ | ⟨i, hi, h1, h2⟩
        · exact Or.inl ⟨h1, h2⟩
        · exact Or.inr ⟨i + 1, by omega, by omega, by rw [h2]; simp⟩
      · intro i hi
        cases i with
        | zero => simpa using le_trans (le_of_not_lt hc) hle
        | succ i => exact (by simpa using hall i (by omega))

/-- The scan index is in range for non-empty input. -/
lemma maxDevIdx_lt (values : List ℚ) (m : ℚ) (h : values ≠ []) :
    maxDevIdx values m < values.length := by
  have hspec := maxDev_foldl_spec m values 0 0 0 (le_refl 0)
  obtain ⟨_, hdisj, _, _⟩ := hspec
  unfold maxDevIdx
  rcases hdisj with ⟨_, h2⟩ | ⟨i, hi, h1, _⟩
  · rw [h2]
    cases values with
    | nil => exact absurd rfl h
    | cons a l => simp
  · rw [h1]
    omega

/-- The scan index attains the maximal absolute deviation. -/
lemma maxDevIdx_max (values : List ℚ) (m : ℚ) :
    ∀ i, i < values.length →
      |values.getD i 0 - m| ≤ |values.getD (maxDevIdx values m) 0 - m| := by
  have hspec := maxDev_foldl_spec m values 0 0 0 (le_refl 0)
  obtain ⟨_, hdisj, _, hall⟩ := hspec
  intro i hi
  unfold maxDevIdx
  rcases hdisj with ⟨h1, h2⟩ | ⟨i', _, h1, h2⟩
  · rw [h2]
    have hb := hall i hi
    rw [h1] at hb
    have : (0 : ℚ) ≤ |values.getD 0 0 - m| := abs_nonneg _
    linarith
  · rw [h1]
    have hb := hall i hi
    rw [h2] at hb
    simpa using hb

/-- Every model weight is positive. -/
lemma weightOf_pos (m : String) : 0 < weightOf m := by
  unfold weightOf MODEL_WEIGHT
  split_ifs <;> norm_num

/-- C1: in `blendValues` with trimming enabled and at least 4 values, the index
dropped by the outlier scan is in range and attains the maximal absolute deviation
from the initial weighted mean; exactly that one index is removed (never re-added),
and the returned mean is the weighted mean over the remaining `N - 1` indices while
the returned spread is the full pre-trim range. -/
theorem C1_trimmed_blend (values : List ℚ) (modelNames : List String)
    (hlen : modelNames.length = values.length) (h4 : 4 ≤ values.length) :
    maxDevIdx values (wMean values (modelNames.map weightOf)) < values.length ∧
    (∀ i, i < values.length →
      |values.getD i 0 - wMean values (modelNames.map weightOf)| ≤
        |values.getD (maxDevIdx values (wMean values (modelNames.map weightOf))) 0 -
          wMean values (modelNames.map weightOf)|) ∧
    useIdx values (modelNames.map weightOf) true =
      (List.range values.length).filter
        (fun i => i ≠ maxDevIdx values (wMean values (modelNames.map weightOf))) ∧
    (useIdx values (modelNames.map weightOf) true).length = values.length - 1 ∧
    maxDevIdx values (wMean values (modelNames.map weightOf)) ∉
      useIdx values (modelNames.map weightOf) true ∧
    (∀ i, i < values.length →
      i ≠ maxDevIdx values (wMean values (modelNames.map weightOf)) →
      i ∈ useIdx values (modelNames.map weightOf) true) ∧
    (blendValues values modelNames true).mean =
      idxSumV values (modelNames.map weightOf) (useIdx values (modelNames.map weightOf) true) /
        idxSumW (modelNames.map weightOf) (useIdx values (modelNames.map weightOf) true) ∧
    (blendValues values modelNames true).spread = listMax values - listMin values := by
  have hne : values ≠ [] := by
    intro h
    rw [h] at h4
    simp at h4
  have hjlt := maxDevIdx_lt values (wMean values (modelNames.map weightOf)) hne
  have hkept : useIdx values (modelNames.map weightOf) true =
      (List.range values.length).filter
        (fun i => i ≠ maxDevIdx values (wMean values (modelNames.map weightOf))) := by
    unfold useIdx
    rw [if_pos ⟨rfl, h4⟩]
  have hfilter_eq_erase :
      (List.range values.length).filter
        (fun i => i ≠ maxDevIdx values (wMean values (modelNames.map weightOf))) =
      (List.range values.length).erase
        (maxDevIdx values (wMean values (modelNames.map weightOf))) := by
    rw [List.Nodup.erase_eq_filter (List.nodup_range _)]
    congr 1
    funext i
    by_cases h : i = maxDevIdx values (wMean values (modelNames.map weightOf)) <;> simp [h]
  have hmem : maxDevIdx values (wMean values (modelNames.map weightOf)) ∈
      List.range values.length := List.mem_range.mpr hjlt
  have h0 : ¬ values.length = 0 := by omega
  have h1 : ¬ values.length = 1 := by omega
  refine ⟨hjlt, maxDevIdx_max values _, hkept, ?_, ?_, ?_, ?_, ?_⟩
  · rw [hkept, hfilter_eq_erase, List.length_erase_of_mem hmem, List.length_range]
  · rw [hkept]
    simp
  · intro i hi hne'
    rw [hkept]
    simp [List.mem_range, hi, hne']
  · simp only [blendValues, if_neg h0, if_neg h1]
    rfl
  · simp only [blendValues, if_neg h0, if_neg h1]
    rfl

/-- C1 witness: the spec scenario. Wind values `[12, 14, 13, 30]` with equal weight 1.0:
initial mean `17.25`, index 3 (value 30) is dropped, trimmed mean 13, spread 18. -/
theorem C1_trimmed_blend_witness :
    (maxDevIdx [12, 14, 13, 30] (wMean [12, 14, 13, 30] (["A", "B", "C", "D"].map weightOf)) <
        ([12, 14, 13, 30] : List ℚ).length ∧
      (∀ i, i < ([12, 14, 13, 30] : List ℚ).length →
        |([12, 14, 13, 30] : List ℚ).getD i 0 -
            wMean [12, 14, 13, 30] (["A", "B", "C", "D"].map weightOf)| ≤
          |([12, 14, 13, 30] : List ℚ).getD
              (maxDevIdx [12, 14, 13, 30]
                (wMean [12, 14, 13, 30] (["A", "B", "C", "D"].map weightOf))) 0 -
            wMean [12, 14, 13, 30] (["A", "B", "C", "D"].map weightOf)|) ∧
      useIdx [12, 14, 13, 30] (["A", "B", "C", "D"].map weightOf) true =
        (List.range ([12, 14, 13, 30] : List ℚ).length).filter
          (fun i => i ≠ maxDevIdx [12, 14, 13, 30]
            (wMean [12, 14, 13, 30] (["A", "B", "C", "D"].map weightOf))) ∧
      (useIdx [12, 14, 13, 30] (["A", "B", "C", "D"].map weightOf) true).length =
        ([12, 14, 13, 30] : List ℚ).length - 1 ∧
      maxDevIdx [12, 14, 13, 30] (wMean [12, 14, 13, 30] (["A", "B", "C", "D"].map weightOf)) ∉
        useIdx [12, 14, 13, 30] (["A", "B", "C", "D"].map weightOf) true ∧
      (∀ i, i < ([12, 14, 13, 30] : List ℚ).length →
        i ≠ maxDevIdx [12, 14, 13, 30]
          (wMean [12, 14, 13, 30] (["A", "B", "C", "D"].map weightOf)) →
        i ∈ useIdx [12, 14, 13, 30] (["A", "B", "C", "D"].map weightOf) true) ∧
      (blendValues [12, 14, 13, 30] ["A", "B", "C", "D"] true).mean =
        idxSumV [12, 14, 13, 30] (["A", "B", "C", "D"].map weightOf)
            (useIdx [12, 14, 13, 30] (["A", "B", "C", "D"].map weightOf) true) /
          idxSumW (["A", "B", "C", "D"].map weightOf)
            (useIdx [12, 14, 13, 30] (["A", "B", "C", "D"].map weightOf) true) ∧
      (blendValues [12, 14, 13, 30] ["A", "B", "C", "D"] true).spread =
        listMax [12, 14, 13, 30] - listMin [12, 14, 13, 30]) ∧
    wMean [12, 14, 13, 30] (["A", "B", "C", "D"].map weightOf) = 69/4 ∧
    maxDevIdx [12, 14, 13, 30] (wMean [12, 14, 13, 30] (["A", "B", "C", "D"].map weightOf)) = 3 ∧
    ([12, 14, 13, 30] : List ℚ).getD 3 0 = 30 ∧
    (blendValues [12, 14, 13, 30] ["A", "B", "C", "D"] true).mean = 13 ∧
    (blendValues [12, 14, 13, 30] ["A", "B", "C", "D"] true).spread = 18 :=
  ⟨C1_trimmed_blend [12, 14, 13, 30] ["A", "B", "C", "D"] (by decide) (by decide),
    by decide, by decide, by decide, by decide, by decide⟩

/-! ### C2 -/

/-- Values at positions below the maximum of the bound stay bounded by a fold of `max`. -/
lemma foldl_max_spec (l : List ℚ) : ∀ (a : ℚ), a ≤ l.foldl max a ∧ ∀ v ∈ l, v ≤ l.foldl max a := by
  induction l with
  | nil => intro a; simp
  | cons x l ih =>
    intro a
    refine ⟨le_trans (le_max_left a x) (ih (max a x)).1, ?_⟩
    intro v hv
    rcases List.mem_cons.mp hv with h | h
    · subst h
      exact le_trans (le_max_right a v) (ih (max a v)).1
    · exact (ih (max a x)).2 v h

/-- Dual of `foldl_max_spec`. -/
lemma foldl_min_spec (l : List ℚ) : ∀ (a : ℚ), l.foldl min a ≤ a ∧ ∀ v ∈ l, l.foldl min a ≤ v := by
  induction l with
  | nil => intro a; simp
  | cons x l ih =>
    intro a
    refine ⟨le_trans (ih (min a x)).1 (min_le_left a x), ?_⟩
    intro v hv
    rcases List.mem_cons.mp hv with h | h
    · subst h
      exact le_trans (ih (min a v)).1 (min_le_right a v)
    · exact (ih (min a x)).2 v h

/-- Every member is at most `listMax`. -/
lemma mem_le_listMax (l : List ℚ) (v : ℚ) (hv : v ∈ l) : v ≤ listMax l :=
  (foldl_max_spec l l.headI).2 v hv

/-- `listMin` is at most every member. -/
lemma listMin_le_mem (l : List ℚ) (v : ℚ) (hv : v ∈ l) : listMin l ≤ v :=
  (foldl_min_spec l l.headI).2 v hv

/-- Zero spread forces all values to coincide with the minimum. -/
lemma all_eq_of_spread_zero (values : List ℚ) (h : blendSpread values = 0) :
    ∀ v ∈ values, v = listMin values := by
  intro v hv
  have h1 := mem_le_listMax values v hv
  have h2 := listMin_le_mem values v hv
  unfold blendSpread at h
  have : listMax values = listMin values := by linarith
  rw [this] at h1
  linarith

/-- Members of `useIdx` are valid indices. -/
lemma useIdx_mem_lt (values weights : List ℚ) (trim : Bool) :
    ∀ i ∈ useIdx values weights trim, i < values.length := by
  intro i hi
  unfold useIdx at hi
  split_ifs at hi
  · exact List.mem_range.mp (List.mem_of_mem_filter hi)
  · exact List.mem_range.mp hi

/-- `useIdx` is non-empty whenever there are at least two values. -/
lemma useIdx_ne_nil (values weights : List ℚ) (trim : Bool) (h2 : 2 ≤ values.length) :
    useIdx values weights trim ≠ [] := by
  unfold useIdx
  split_ifs with hc
  · intro hnil
    have hne : values ≠ [] := by
      intro h
      rw [h] at h2
      simp at h2
    have hjlt := maxDevIdx_lt values (wMean values weights) hne
    have hmem : maxDevIdx values (wMean values weights) ∈ List.range values.length :=
      List.mem_range.mpr hjlt
    have hfe : (List.range values.length).filter
        (fun i => i ≠ maxDevIdx values (wMean values weights)) =
        (List.range values.length).erase (maxDevIdx values (wMean values weights)) := by
      rw [List.Nodup.erase_eq_filter (List.nodup_range _)]
      congr 1
      funext i
      by_cases h : i = maxDevIdx values (wMean values weights) <;> simp [h]
    rw [hfe] at hnil
    have := List.length_erase_of_mem hmem
    rw [hnil] at this
    simp [List.length_range] at this
    omega
  · intro hnil
    rw [List.range_eq_nil] at hnil
    omega

/-- `idxSumW` as a sum over the mapped list. -/
lemma foldl_add_map (f : ℕ → ℚ) (idx : List ℕ) :
    ∀ (s : ℚ), idx.foldl (fun s i => s + f i) s = s + (idx.map f).sum := by
  induction idx with
  | nil => intro s; simp
  | cons x idx ih =>
    intro s
    simp only [List.foldl_cons, List.map_cons, List.sum_cons]
    rw [ih]
    ring

/-- `idxSumW` in sum form. -/
lemma idxSumW_eq_sum (weights : List ℚ) (idx : List ℕ) :
    idxSumW weights idx = (idx.map fun i => weights.getD i 0).sum := by
  unfold idxSumW
  rw [foldl_add_map (fun i => weights.getD i 0) idx 0]
  ring

/-- `idxSumV` in sum form. -/
lemma idxSumV_eq_sum (values weights : List ℚ) (idx : List ℕ) :
    idxSumV values weights idx = (idx.map fun i => values.getD i 0 * weights.getD i 0).sum := by
  unfold idxSumV
  rw [foldl_add_map (fun i => values.getD i 0 * weights.getD i 0) idx 0]
  ring

/-- `getD` of a mapped list at a valid index. -/
lemma getD_map_of_lt (f : String → ℚ) (l : List String) (i : ℕ) (hi : i < l.length) :
    (l.map f).getD i 0 = f (l.get ⟨i, hi⟩) := by
  rw [List.getD_eq_getElem?_getD, List.getElem?_map, List.getElem?_eq_getElem hi]
  simp

/-- The final-mean denominator is positive (weights are model weights, all positive). -/
lemma idxSumW_pos (values : List ℚ) (modelNames : List String) (trim : Bool)
    (hlen : modelNames.length = values.length) (h2 : 2 ≤ values.length) :
    0 < idxSumW (modelNames.map weightOf) (useIdx values (modelNames.map weightOf) trim) := by
  rw [idxSumW_eq_sum]
  apply List.sum_pos
  · intro w hw
    obtain ⟨i, hi, rfl⟩ := List.mem_map.mp hw
    have hilt : i < modelNames.length := by
      rw [hlen]
      exact useIdx_mem_lt values (modelNames.map weightOf) trim i hi
    rw [getD_map_of_lt weightOf modelNames i hilt]
    exact weightOf_pos _
  · intro hnil
    exact useIdx_ne_nil values (modelNames.map weightOf) trim h2 (List.map_eq_nil_iff.mp hnil)

/-- `getD` is the constant when all values equal that constant. -/
lemma getD_eq_of_all (values : List ℚ) (c : ℚ) (hall : ∀ v ∈ values, v = c) (i : ℕ)
    (hi : i < values.length) : values.getD i 0 = c := by
  rw [List.getD_eq_getElem?_getD, List.getElem?_eq_getElem hi]
  simp only [Option.getD_some]
  exact hall _ (List.getElem_mem hi)

/-- The blend mean of a constant list is that constant. -/
lemma blendMean_const (values : List ℚ) (modelNames : List String) (trim : Bool) (c : ℚ)
    (hall : ∀ v ∈ values, v = c) (hlen : modelNames.length = values.length)
    (h2 : 2 ≤ values.length) : blendMean values modelNames trim = c := by
  have hW := idxSumW_pos values modelNames trim hlen h2
  simp only [blendMean]
  rw [idxSumV_eq_sum]
  have hmapeq : ((useIdx values (modelNames.map weightOf) trim).map
      fun i => values.getD i 0 * (modelNames.map weightOf).getD i 0) =
      (useIdx values (modelNames.map weightOf) trim).map
      fun i => c * (modelNames.map weightOf).getD i 0 := by
    apply List.map_congr_left
    intro i hi
    rw [getD_eq_of_all values c hall i
      (useIdx_mem_lt values (modelNames.map weightOf) trim i hi)]
  rw [hmapeq, List.sum_map_mul_left, ← idxSumW_eq_sum]
  field_simp

/-- The blend variance of a constant list is zero. -/
lemma blendVariance_const (values : List ℚ) (modelNames : List String) (trim : Bool) (c : ℚ)
    (hall : ∀ v ∈ values, v = c) (hlen : modelNames.length = values.length)
    (h2 : 2 ≤ values.length) : blendVariance values modelNames trim = 0 := by
  unfold blendVariance
  have hmean := blendMean_const values modelNames trim c hall hlen h2
  have hfold : ∀ (l : List ℚ), (∀ v ∈ l, v - blendMean values modelNames trim = 0) →
      ∀ s : ℚ, l.foldl (fun s v => s + (v - blendMean values modelNames trim) ^ 2) s = s := by
    intro l
    induction l with
    | nil => intro _ s; simp
    | cons x l ih =>
      intro hl s
      simp only [List.foldl_cons]
      rw [hl x (List.mem_cons_self x l), ih (fun v hv => hl v (List.mem_cons_of_mem x hv))]
      ring
  rw [hfold values (fun v hv => by rw [hall v hv, hmean]; ring) 0]
  simp

/-- C2 counterexample: for values `[1, 1, 1, 9]` with equal weight 1.0 and trimming,
the code's confidence is 0 (its standard deviation sums squared deviations of ALL
pre-trim values about the post-trim mean), while the claimed formula (population
standard deviation of the post-trim values) yields 1. -/
theorem C2_confidence_counterexample :
    (blendValues [1, 1, 1, 9] ["A", "B", "C", "D"] true).confidence = 0 ∧
    specConfidenceC2 [1, 1, 1, 9] ["A", "B", "C", "D"] true = 1 ∧
    (0 : ℝ) ≠ 1 := by
  have hmean : blendMean [1, 1, 1, 9] ["A", "B", "C", "D"] true = 1 := by decide
  have hvar : blendVariance [1, 1, 1, 9] ["A", "B", "C", "D"] true = 16 := by decide
  have hsvar : specVarianceC2 [1, 1, 1, 9] ["A", "B", "C", "D"] true = 0 := by decide
  refine ⟨?_, ?_, by norm_num⟩
  · simp only [blendValues]
    rw [if_neg (by decide), if_neg (by decide)]
    show blendConfidence [1, 1, 1, 9] ["A", "B", "C", "D"] true = 0
    simp only [blendConfidence, hmean, hvar]
    rw [if_pos (by norm_num : (0 : ℚ) < 1)]
    have h16 : ((16 : ℚ) : ℝ) = (4 : ℝ) ^ 2 := by norm_num
    rw [h16, Real.sqrt_sq (by norm_num : (0:ℝ) ≤ 4)]
    norm_num
  · simp only [specConfidenceC2, hsvar, hmean]
    rw [show ((0 : ℚ) : ℝ) = 0 by norm_num, Real.sqrt_zero]
    norm_num

/-- C2 amended: the confidence returned by `blendValues` for `n ≥ 2` equals
`clamp(1 − 2·CV, 0, 1)` where the standard deviation underlying `CV` sums the squared
deviations of ALL pre-trim values about the post-trim mean (divided by the full count),
and `CV` divides by the mean only when the mean is positive (otherwise the raw standard
deviation is used).  Consequently the confidence always lies in `[0, 1]`, equals 1 when
the spread is zero, and equals 0 when that `CV` is at least `0.5`. -/
theorem C2_confidence_amended (values : List ℚ) (modelNames : List String) (trim : Bool)
    (hlen : modelNames.length = values.length) (h2 : 2 ≤ values.length) :
    (blendValues values modelNames trim).confidence =
      max 0 (min 1 (1 -
        (if 0 < blendMean values modelNames trim then
          Real.sqrt ((blendVariance values modelNames trim : ℚ) : ℝ) /
            ((blendMean values modelNames trim : ℚ) : ℝ)
        else Real.sqrt ((blendVariance values modelNames trim : ℚ) : ℝ)) * 2)) ∧
    0 ≤ (blendValues values modelNames trim).confidence ∧
    (blendValues values modelNames trim).confidence ≤ 1 ∧
    (blendSpread values = 0 → (blendValues values modelNames trim).confidence = 1) ∧
    ((1 / 2 : ℝ) ≤
        (if 0 < blendMean values modelNames trim then
          Real.sqrt ((blendVariance values modelNames trim : ℚ) : ℝ) /
            ((blendMean values modelNames trim : ℚ) : ℝ)
        else Real.sqrt ((blendVariance values modelNames trim : ℚ) : ℝ)) →
      (blendValues values modelNames trim).confidence = 0) := by
  have h0 : ¬ values.length = 0 := by omega
  have h1 : ¬ values.length = 1 := by omega
  have hconf : (blendValues values modelNames trim).confidence =
      blendConfidence values modelNames trim := by
    simp only [blendValues, if_neg h0, if_neg h1]
  have hform : blendConfidence values modelNames trim =
      max 0 (min 1 (1 -
        (if 0 < blendMean values modelNames trim then
          Real.sqrt ((blendVariance values modelNames trim : ℚ) : ℝ) /
            ((blendMean values modelNames trim : ℚ) : ℝ)
        else Real.sqrt ((blendVariance values modelNames trim : ℚ) : ℝ)) * 2)) := rfl
  refine ⟨hconf.trans hform, ?_, ?_, ?_, ?_⟩
  · rw [hconf, hform]
    exact le_max_left _ _
  · rw [hconf, hform]
    exact max_le (by norm_num) (min_le_left _ _)
  · intro hsp
    have hall := all_eq_of_spread_zero values hsp
    have hmean := blendMean_const values modelNames trim (listMin values) hall hlen h2
    have hvar := blendVariance_const values modelNames trim (listMin values) hall hlen h2
    rw [hconf]
    simp only [blendConfidence, hvar]
    rw [show ((0 : ℚ) : ℝ) = 0 by norm_num, Real.sqrt_zero]
    split_ifs <;> norm_num
  · intro hcv
    rw [hconf, hform]
    set x : ℝ := (if 0 < blendMean values modelNames trim then
          Real.sqrt ((blendVariance values modelNames trim : ℚ) : ℝ) /
            ((blendMean values modelNames trim : ℚ) : ℝ)
        else Real.sqrt ((blendVariance values modelNames trim : ℚ) : ℝ)) with hx
    have h1x : 1 - x * 2 ≤ 0 := by linarith
    rw [min_eq_right (by linarith : 1 - x * 2 ≤ 1)]
    exact max_eq_left h1x

/-- C2 amended witness: two equal values `[3, 3]` give zero spread and confidence 1. -/
theorem C2_confidence_amended_witness :
    ((blendValues [3, 3] ["GFS", "ECMWF"] true).confidence =
      max 0 (min 1 (1 -
        (if 0 < blendMean [3, 3] ["GFS", "ECMWF"] true then
          Real.sqrt ((blendVariance [3, 3] ["GFS", "ECMWF"] true : ℚ) : ℝ) /
            ((blendMean [3, 3] ["GFS", "ECMWF"] true : ℚ) : ℝ)
        else Real.sqrt ((blendVariance [3, 3] ["GFS", "ECMWF"] true : ℚ) : ℝ)) * 2)) ∧
    0 ≤ (blendValues [3, 3] ["GFS", "ECMWF"] true).confidence ∧
    (blendValues [3, 3] ["GFS", "ECMWF"] true).confidence ≤ 1 ∧
    (blendSpread [3, 3] = 0 → (blendValues [3, 3] ["GFS", "ECMWF"] true).confidence = 1) ∧
    ((1 / 2 : ℝ) ≤
        (if 0 < blendMean [3, 3] ["GFS", "ECMWF"] true then
          Real.sqrt ((blendVariance [3, 3] ["GFS", "ECMWF"] true : ℚ) : ℝ) /
            ((blendMean [3, 3] ["GFS", "ECMWF"] true : ℚ) : ℝ)
        else Real.sqrt ((blendVariance [3, 3] ["GFS", "ECMWF"] true : ℚ) : ℝ)) →
      (blendValues [3, 3] ["GFS", "ECMWF"] true).confidence = 0)) ∧
    blendSpread [3, 3] = 0 :=
  ⟨C2_confidence_amended [3, 3] ["GFS", "ECMWF"] true (by decide) (by decide), by decide⟩

/-! ### C3 -/

/-- `blendValues` on a single value. -/
lemma blendValues_singleton (w : ℚ) (ns : List String) (t : Bool) :
    blendValues [w] ns t = ⟨w, 0, 1/2⟩ := by
  simp [blendValues]

/-- `circularConcentration` on a single angle. -/
lemma circularConcentration_singleton (a : ℚ) : circularConcentration [a] = 1 := by
  simp [circularConcentration]

/-- The rounded overall confidence for a one-model blend. -/
lemma jsRound_single_overall :
    jsRound (((1 : ℝ)/2 * (0.6 : ℝ) + 1 * (0.4 : ℝ)) * 100) = 70 := by
  unfold jsRound
  norm_num [Int.floor_eq_iff]

/-- C3 counterexample: a blended daily forecast built from exactly one succeeded model
has point confidence `0.7` (not `0.5`); its spread is 0. -/
theorem C3_single_model_counterexample :
    (blendDailyPoints [("GFS", [c3DayPt])]).headI.confidence = some (7/10) ∧
    (blendDailyPoints [("GFS", [c3DayPt])]).headI.spread = some 0 ∧
    ¬ ((7 : ℚ)/10 = 1/2) := by
  refine ⟨?_, ?_, by norm_num⟩
  · simp only [blendDailyPoints, List.map_cons, List.map_nil, List.headI,
      List.mapIdx_cons, List.mapIdx_nil, blendValues_singleton,
      circularConcentration_singleton]
    norm_num [jsRound, Int.floor_eq_iff]
  · simp only [blendDailyPoints, List.map_cons, List.map_nil, List.headI,
      List.mapIdx_cons, List.mapIdx_nil, blendValues_singleton,
      circularConcentration_singleton]

/-- C3 amended: when exactly one base model succeeds, every per-quantity `blendValues`
call sees a single value and reports confidence `0.5` and spread `0`, and every point of
the returned blended sequence (daily or hourly) carries spread `0` and overall
confidence `0.7 = round((0.5·0.6 + 1·0.4)·100)/100` — not `0.5`. -/
theorem C3_single_model_amended (m : String) (ds : List DayForecast)
    (hs : List HourForecast) :
    (∀ w : ℚ, ∀ t : Bool, (blendValues [w] [m] t).confidence = 1/2 ∧
      (blendValues [w] [m] t).spread = 0) ∧
    (∀ p ∈ blendDailyPoints [(m, ds)], p.spread = some 0 ∧ p.confidence = some (7/10)) ∧
    (∀ p ∈ blendHourlyPoints [(m, hs)], p.spread = some 0 ∧ p.confidence = some (7/10)) := by
  refine ⟨fun w t => by rw [blendValues_singleton]; exact ⟨rfl, rfl⟩, ?_, ?_⟩
  · intro p hp
    simp only [blendDailyPoints, List.map_cons, List.map_nil, List.headI] at hp
    rw [List.mapIdx_eq_enum_map] at hp
    obtain ⟨⟨i, d⟩, hxmem, rfl⟩ := List.mem_map.mp hp
    simp only [Function.uncurry_apply_pair, blendValues_singleton,
      circularConcentration_singleton]
    norm_num [jsRound, Int.floor_eq_iff]
  · intro p hp
    simp only [blendHourlyPoints, List.map_cons, List.map_nil, List.headI] at hp
    rw [List.mapIdx_eq_enum_map] at hp
    obtain ⟨⟨i, d⟩, hxmem, rfl⟩ := List.mem_map.mp hp
    simp only [Function.uncurry_apply_pair, blendValues_singleton,
      circularConcentration_singleton]
    norm_num [jsRound, Int.floor_eq_iff]

/-- C3 amended witness at a concrete one-model ensemble. -/
theorem C3_single_model_amended_witness :
    ((∀ w : ℚ, ∀ t : Bool, (blendValues [w] ["GFS"] t).confidence = 1/2 ∧
      (blendValues [w] ["GFS"] t).spread = 0) ∧
    (∀ p ∈ blendDailyPoints [("GFS", [c3DayPt])],
      p.spread = some 0 ∧ p.confidence = some (7/10)) ∧
    (∀ p ∈ blendHourlyPoints [("GFS", [c3HourPt])],
      p.spread = some 0 ∧ p.confidence = some (7/10))) :=
  C3_single_model_amended "GFS" [c3DayPt] [c3HourPt]

/-! ### C6 -/

/-- The success filter of a `BLEND` fetch is empty exactly when every settled result
is a failure. -/
lemma zip_filterMap_eq_nil {α : Type} (ms : List String) (results : List (Option α))
    (h : results.length ≤ ms.length) :
    ((ms.zip results).filterMap fun mr => mr.2.map fun d => (mr.1, d)) = [] ↔
      ∀ r ∈ results, r = none := by
  induction results generalizing ms with
  | nil => simp
  | cons r rs ih =>
    cases ms with
    | nil => simp at h
    | cons m ms' =>
      have h' : rs.length ≤ ms'.length := by simpa using h
      cases r with
      | none =>
        simp only [List.zip_cons_cons, List.filterMap_cons, Option.map_none']
        rw [ih ms' h']
        simp
      | some a =>
        simp only [List.zip_cons_cons, List.filterMap_cons, Option.map_some']
        simp

/-- `succeededOf` is empty exactly when all five settled results failed. -/
lemma succeededOf_eq_nil_iff {α : Type} (results : List (Option α))
    (h : results.length = 5) :
    succeededOf results = [] ↔ ∀ r ∈ results, r = none := by
  unfold succeededOf
  exact zip_filterMap_eq_nil BASE_MODELS results (by rw [h]; simp [BASE_MODELS])

/-- C6: a `BLEND` fetch (daily or hourly) rejects with `All models failed` exactly when
all five concurrently settled base-model fetches failed; with at least one success it
returns a blended sequence. -/
theorem C6_blend_partial_failure (dres : List (Option (List DayForecast)))
    (hres : List (Option (List HourForecast)))
    (hd : dres.length = 5) (hh : hres.length = 5) :
    (fetchDailyForecastBlend dres = Except.error "All models failed" ↔
      ∀ r ∈ dres, r = none) ∧
    ((∃ r ∈ dres, r ≠ none) → ∃ pts, fetchDailyForecastBlend dres = Except.ok pts) ∧
    (fetchHourlyForecastBlend hres = Except.error "All models failed" ↔
      ∀ r ∈ hres, r = none) ∧
    ((∃ r ∈ hres, r ≠ none) → ∃ pts, fetchHourlyForecastBlend hres = Except.ok pts) := by
  have hdiff := succeededOf_eq_nil_iff dres hd
  have hhiff := succeededOf_eq_nil_iff hres hh
  refine ⟨?_, ?_, ?_, ?_⟩
  · simp only [fetchDailyForecastBlend]
    by_cases hnil : succeededOf dres = []
    · rw [if_pos (by simp [hnil])]
      exact iff_of_true rfl (hdiff.mp hnil)
    · rw [if_neg (by simp [hnil])]
      constructor
      · intro h
        exact absurd h (by simp)
      · intro hall
        exact absurd (hdiff.mpr hall) hnil
  · intro ⟨r, hr, hrne⟩
    have hnil : succeededOf dres ≠ [] := by
      intro hn
      exact hrne (hdiff.mp hn r hr)
    simp only [fetchDailyForecastBlend]
    rw [if_neg (by simp [hnil])]
    exact ⟨_, rfl⟩
  · simp only [fetchHourlyForecastBlend]
    by_cases hnil : succeededOf hres = []
    · rw [if_pos (by simp [hnil])]
      exact iff_of_true rfl (hhiff.mp hnil)
    · rw [if_neg (by simp [hnil])]
      constructor
      · intro h
        exact absurd h (by simp)
      · intro hall
        exact absurd (hhiff.mpr hall) hnil
  · intro ⟨r, hr, hrne⟩
    have hnil : succeededOf hres ≠ [] := by
      intro hn
      exact hrne (hhiff.mp hn r hr)
    simp only [fetchHourlyForecastBlend]
    rw [if_neg (by simp [hnil])]
    exact ⟨_, rfl⟩

/-- C6 witness: with only the second model succeeding (empty data), the daily blend
returns a sequence; with all five failing it rejects. -/
theorem C6_blend_partial_failure_witness :
    ((fetchDailyForecastBlend [none, some [], none, none, none] =
        Except.error "All models failed" ↔
      ∀ r ∈ ([none, some [], none, none, none] : List (Option (List DayForecast))),
        r = none) ∧
    ((∃ r ∈ ([none, some [], none, none, none] : List (Option (List DayForecast))),
        r ≠ none) →
      ∃ pts, fetchDailyForecastBlend [none, some [], none, none, none] = Except.ok pts) ∧
    (fetchHourlyForecastBlend [none, none, none, none, none] =
        Except.error "All models failed" ↔
      ∀ r ∈ ([none, none, none, none, none] : List (Option (List HourForecast))),
        r = none) ∧
    ((∃ r ∈ ([none, none, none, none, none] : List (Option (List HourForecast))),
        r ≠ none) →
      ∃ pts, fetchHourlyForecastBlend [none, none, none, none, none] = Except.ok pts)) :=
  C6_blend_partial_failure [none, some [], none, none, none]
    [none, none, none, none, none] rfl rfl

/-! ### C10 -/

/-- C10: the blended sequence has exactly the length of the first succeeded model's
sequence, and every field the blend does not recompute is copied unchanged from the
first succeeded model's point at the same index (daily: `day`, `date`, `cloud`,
`tideHigh`, `tideLow`, `tideRange`; hourly: the `hour` label and the `tide` value). -/
theorem C10_blend_frame (succeeded : List (String × List DayForecast))
    (succeededH : List (String × List HourForecast))
    (hne : succeeded ≠ []) (hneH : succeededH ≠ []) :
    (blendDailyPoints succeeded).length = succeeded.headI.2.length ∧
    (∀ (i : ℕ) (p q : DayForecast), (blendDailyPoints succeeded)[i]? = some p →
      (succeeded.headI.2)[i]? = some q →
      p.day = q.day ∧ p.date = q.date ∧ p.cloud = q.cloud ∧
      p.tideHigh = q.tideHigh ∧ p.tideLow = q.tideLow ∧ p.tideRange = q.tideRange) ∧
    (blendHourlyPoints succeededH).length = succeededH.headI.2.length ∧
    (∀ (i : ℕ) (p q : HourForecast), (blendHourlyPoints succeededH)[i]? = some p →
      (succeededH.headI.2)[i]? = some q →
      p.hour = q.hour ∧ p.tide = q.tide) := by
  refine ⟨by simp [blendDailyPoints], ?_, by simp [blendHourlyPoints], ?_⟩
  · intro i p q hp hq
    simp only [blendDailyPoints, List.getElem?_mapIdx, hq, Option.map_some'] at hp
    obtain rfl := Option.some_inj.mp hp
    exact ⟨rfl, rfl, rfl, rfl, rfl, rfl⟩
  · intro i p q hp hq
    simp only [blendHourlyPoints, List.getElem?_mapIdx, hq, Option.map_some'] at hp
    obtain rfl := Option.some_inj.mp hp
    exact ⟨rfl, rfl⟩

/-- C10 witness at a concrete one-model ensemble. -/
theorem C10_blend_frame_witness :
    ((blendDailyPoints [("GFS", [c3DayPt])]).length =
      (List.headI [("GFS", [c3DayPt])]).2.length ∧
    (∀ (i : ℕ) (p q : DayForecast), (blendDailyPoints [("GFS", [c3DayPt])])[i]? = some p →
      ((List.headI [("GFS", [c3DayPt])]).2)[i]? = some q →
      p.day = q.day ∧ p.date = q.date ∧ p.cloud = q.cloud ∧
      p.tideHigh = q.tideHigh ∧ p.tideLow = q.tideLow ∧ p.tideRange = q.tideRange) ∧
    (blendHourlyPoints [("GFS", [c3HourPt])]).length =
      (List.headI [("GFS", [c3HourPt])]).2.length ∧
    (∀ (i : ℕ) (p q : HourForecast),
      (blendHourlyPoints [("GFS", [c3HourPt])])[i]? = some p →
      ((List.headI [("GFS", [c3HourPt])]).2)[i]? = some q →
      p.hour = q.hour ∧ p.tide = q.tide)) :=
  C10_blend_frame [("GFS", [c3DayPt])] [("GFS", [c3HourPt])] (by simp) (by simp)

/-! ### C5 -/

/-- `atan2` recovers an angle in `(-π, π]` from its sine and cosine. -/
lemma jsAtan2_sin_cos (ψ : ℝ) (hψ : ψ ∈ Set.Ioc (-π) π) :
    jsAtan2 (Real.sin ψ) (Real.cos ψ) = ψ := by
  unfold jsAtan2
  rw [Complex.ofReal_cos, Complex.ofReal_sin]
  exact Complex.arg_cos_add_sin_mul_I hψ

/-- `circularMeanDeg` on a single angle of weight one. -/
lemma circularMeanDeg_single (a : ℚ) :
    circularMeanDeg [a] [1] =
      jsRound
        (if jsAtan2 (Real.sin (((a : ℚ) : ℝ) * π / 180)) (Real.cos (((a : ℚ) : ℝ) * π / 180)) *
              180 / π < 0 then
          jsAtan2 (Real.sin (((a : ℚ) : ℝ) * π / 180)) (Real.cos (((a : ℚ) : ℝ) * π / 180)) *
              180 / π + 360
        else
          jsAtan2 (Real.sin (((a : ℚ) : ℝ) * π / 180)) (Real.cos (((a : ℚ) : ℝ) * π / 180)) *
              180 / π) := by
  simp [circularMeanDeg]

/-- C5 counterexample: for the single direction `359.5°` the code returns `360`,
which lies outside `[0, 360)`. -/
theorem C5_circular_mean_counterexample :
    circularMeanDeg [719/2] [1] = 360 ∧ ¬ (circularMeanDeg [719/2] [1] < 360) := by
  have hpi := Real.pi_pos
  have key : circularMeanDeg [719/2] [1] = 360 := by
    rw [circularMeanDeg_single]
    have hcast : (((719/2 : ℚ) : ℝ)) = 719/2 := by norm_num
    rw [hcast]
    have hshift : (719/2 : ℝ) * π / 180 = -(π/360) + 2 * π := by ring
    have hsin : Real.sin ((719/2 : ℝ) * π / 180) = Real.sin (-(π/360)) := by
      rw [hshift, Real.sin_add_two_pi]
    have hcos : Real.cos ((719/2 : ℝ) * π / 180) = Real.cos (-(π/360)) := by
      rw [hshift, Real.cos_add_two_pi]
    rw [hsin, hcos, jsAtan2_sin_cos (-(π/360)) ⟨by linarith, by linarith⟩]
    have hmean : -(π/360) * 180 / π = -(1/2 : ℝ) := by
      field_simp
      ring
    rw [hmean, if_pos (by norm_num : -(1/2 : ℝ) < 0)]
    unfold jsRound
    norm_num [Int.floor_eq_iff]
  exact ⟨key, by rw [key]; omega⟩

/-- C5 amended: the blended direction is the weighted unit-vector circular mean,
shifted into non-negative degrees and then rounded half-up; the rounded result lies
in `[0, 360]` (the boundary value 360 is attainable, so `[0, 360)` fails). -/
theorem C5_circular_mean_amended (angles weights : List ℚ)
    (hlen : angles.length = weights.length)
    (hw : 0 < (angles.zip weights).foldl (fun s p => s + p.2) (0 : ℚ)) :
    0 ≤ circularMeanDeg angles weights ∧ circularMeanDeg angles weights ≤ 360 := by
  have hpi := Real.pi_pos
  simp only [circularMeanDeg]
  set y : ℝ := ((angles.zip weights).foldl
    (fun s p => s + Real.sin ((p.1 : ℝ) * π / 180) * (p.2 : ℝ)) 0) /
    ((angles.zip weights).foldl (fun s p => s + (p.2 : ℝ)) 0) with hy
  set x : ℝ := ((angles.zip weights).foldl
    (fun s p => s + Real.cos ((p.1 : ℝ) * π / 180) * (p.2 : ℝ)) 0) /
    ((angles.zip weights).foldl (fun s p => s + (p.2 : ℝ)) 0) with hx
  have harg1 : jsAtan2 y x ≤ π := Complex.arg_le_pi _
  have harg2 : -π < jsAtan2 y x := Complex.neg_pi_lt_arg _
  have hub : jsAtan2 y x * 180 / π ≤ 180 := by
    rw [div_le_iff₀ hpi]
    nlinarith
  have hlb : -180 < jsAtan2 y x * 180 / π := by
    rw [lt_div_iff₀ hpi]
    nlinarith
  set mean : ℝ := jsAtan2 y x * 180 / π with hmean
  have hm : 0 ≤ (if mean < 0 then mean + 360 else mean) ∧
      (if mean < 0 then mean + 360 else mean) < 360 := by
    split_ifs with hneg
    · constructor <;> linarith
    · constructor <;> linarith [not_lt.mp hneg]
  constructor
  · unfold jsRound
    have : (0 : ℝ) ≤ (if mean < 0 then mean + 360 else mean) + 1/2 := by linarith [hm.1]
    exact Int.le_floor.mpr (by simpa using this)
  · unfold jsRound
    have : (if mean < 0 then mean + 360 else mean) + 1/2 < (361 : ℝ) := by linarith [hm.2]
    have hfl : ⌊(if mean < 0 then mean + 360 else mean) + 1/2⌋ < (361 : ℤ) :=
      Int.floor_lt.mpr (by exact_mod_cast this)
    omega

/-- The spec scenario for C5: the circular mean of `350°` and `10°` with equal weights
is `0°`, not `180°`. -/
lemma circularMeanDeg_350_10 : circularMeanDeg [350, 10] [1, 1] = 0 := by
  have hpi := Real.pi_pos
  have h350s : Real.sin ((350 : ℝ) * π / 180) = -Real.sin ((10 : ℝ) * π / 180) := by
    have h : (350 : ℝ) * π / 180 = -(10 * π / 180) + 2 * π := by ring
    rw [h, Real.sin_add_two_pi, Real.sin_neg]
  have h350c : Real.cos ((350 : ℝ) * π / 180) = Real.cos ((10 : ℝ) * π / 180) := by
    have h : (350 : ℝ) * π / 180 = -(10 * π / 180) + 2 * π := by ring
    rw [h, Real.cos_add_two_pi, Real.cos_neg]
  have hcpos : 0 ≤ Real.cos ((10 : ℝ) * π / 180) := by
    apply Real.cos_nonneg_of_mem_Icc
    constructor
    · nlinarith
    · nlinarith
  simp only [circularMeanDeg, List.zip_cons_cons, List.zip_nil_right, List.foldl_cons,
    List.foldl_nil]
  push_cast
  rw [h350s, h350c]
  have hsin0 : (0 : ℝ) + -Real.sin (10 * π / 180) * 1 + Real.sin (10 * π / 180) * 1 = 0 := by
    ring
  have hcos2 : (0 : ℝ) + Real.cos (10 * π / 180) * 1 + Real.cos (10 * π / 180) * 1 =
      2 * Real.cos (10 * π / 180) := by
    ring
  have hw2 : (0 : ℝ) + 1 + 1 = 2 := by norm_num
  rw [hsin0, hcos2, hw2]
  have harg : jsAtan2 (0 / 2) (2 * Real.cos (10 * π / 180) / 2) = 0 := by
    unfold jsAtan2
    rw [show (0 : ℝ) / 2 = 0 by norm_num]
    simp only [Complex.ofReal_zero, zero_mul, add_zero]
    exact Complex.arg_ofReal_of_nonneg (by linarith)
  rw [harg]
  rw [zero_mul, zero_div, if_neg (by norm_num)]
  unfold jsRound
  norm_num

/-- C5 amended witness: the spec scenario, with the range bound from the theorem. -/
theorem C5_circular_mean_amended_witness :
    (0 ≤ circularMeanDeg [350, 10] [1, 1] ∧ circularMeanDeg [350, 10] [1, 1] ≤ 360) ∧
    circularMeanDeg [350, 10] [1, 1] = 0 :=
  ⟨C5_circular_mean_amended [350, 10] [1, 1] (by decide) (by decide),
    circularMeanDeg_350_10⟩

/-! ### C7 -/

/-- C7 counterexample: the in-flight marker is one global slot, not a per-cell map.
Starting from an empty state, a fetch for cell `(0,0)` starts (promise 1); before it
completes, a fetch for a different cell starts (promise 2) and overwrites the marker;
a further call for cell `(0,0)` — whose fetch 1 is still pending — then issues a THIRD
network request instead of joining fetch 1. -/
theorem C7_single_slot_counterexample :
    (fetchTideDataStep c7Env c7St0 0 0 1).1 = TideFetchAction.startFetch 1 ∧
    (fetchTideDataStep c7Env (fetchTideDataStep c7Env c7St0 0 0 1).2 10 10 2).1 =
      TideFetchAction.startFetch 2 ∧
    (fetchTideDataStep c7Env
        (fetchTideDataStep c7Env (fetchTideDataStep c7Env c7St0 0 0 1).2 10 10 2).2
        0 0 3).1 = TideFetchAction.startFetch 3 ∧
    gridKey 10 10 ≠ gridKey 0 0 := by decide

/-- C7 amended: the dedup guard is a single global slot.  When every cache layer
misses, a key is configured, and some promise `p` is pending, a further call joins `p`
without a new request exactly when the slot currently records this call's grid cell;
if the slot records a different cell, a new request is issued even though a fetch for
this cell may still be pending. -/
theorem C7_inflight_dedup (env : TideFetchEnv) (st : TideFetchState) (lat lng : ℚ)
    (p fresh : ℕ)
    (hmem : cacheCovers st.memCache env.today lat lng = false)
    (hstore : loadCache env.storage env.today lat lng = none)
    (hseed : findSeed env.seeds env.today lat lng = none)
    (hkey : st.apiKey ≠ "")
    (hin : st.inflight = some p) :
    (st.inflightGrid = some (gridKey lat lng) →
      fetchTideDataStep env st lat lng fresh = (TideFetchAction.joinInflight p, st)) ∧
    (st.inflightGrid ≠ some (gridKey lat lng) →
      fetchTideDataStep env st lat lng fresh = (TideFetchAction.startFetch fresh,
        { st with inflight := some fresh, inflightGrid := some (gridKey lat lng) })) := by
  constructor
  · intro hgrid
    simp only [fetchTideDataStep, hmem, hstore, hseed, hin, hgrid]
    rw [if_neg (by simp), if_neg hkey]
    simp
  · intro hgrid
    simp only [fetchTideDataStep, hmem, hstore, hseed, hin]
    rw [if_neg (by simp), if_neg hkey, if_neg hgrid]

/-- C7 amended witness at a concrete in-flight state. -/
theorem C7_inflight_dedup_witness :
    ((c7StIn.inflightGrid = some (gridKey 0 0) →
      fetchTideDataStep c7Env c7StIn 0 0 5 = (TideFetchAction.joinInflight 1, c7StIn)) ∧
    (c7StIn.inflightGrid ≠ some (gridKey 0 0) →
      fetchTideDataStep c7Env c7StIn 0 0 5 = (TideFetchAction.startFetch 5,
        { c7StIn with inflight := some 5, inflightGrid := some (gridKey 0 0) }))) :=
  C7_inflight_dedup c7Env c7StIn 0 0 1 5 (by decide) (by decide) (by decide)
    (by decide) (by decide)

/-! ### C8 and C9 -/

/-- `tideRaw` factors as mean sea level plus an amplitude (the only part depending on
the day of year) times a wave shape depending only on `dayOffset`, `hour`, `lat`. -/
lemma tideRaw_factor (dayOffset hour lat : ℚ) (doy : ℤ) :
    tideRaw dayOffset hour lat doy =
      (2.1 : ℝ) +
        ((1.6 : ℝ) + (0.4 : ℝ) *
          Real.cos (((doy : ℝ) + (dayOffset : ℝ)) / (14.76 : ℝ) * (2 * π))) *
        (Real.cos ((hour : ℝ) / (12.42 : ℝ) * (2 * π) +
            ((dayOffset : ℝ) * LUNAR_SHIFT_RAD +
              ((jsMod (lat * (7.3 : ℚ) + (41.7 : ℚ)) 360 : ℚ) : ℝ) * π / 180)) +
          (0.18 : ℝ) * Real.cos ((hour : ℝ) / 24 * (2 * π) +
            ((dayOffset : ℝ) * LUNAR_SHIFT_RAD +
              ((jsMod (lat * (7.3 : ℚ) + (41.7 : ℚ)) 360 : ℚ) : ℝ) * π / 180) * (0.52 : ℝ) +
            (0.8 : ℝ)) +
          (0.06 : ℝ) * Real.cos (2 * ((hour : ℝ) / (12.42 : ℝ) * (2 * π) +
            ((dayOffset : ℝ) * LUNAR_SHIFT_RAD +
              ((jsMod (lat * (7.3 : ℚ) + (41.7 : ℚ)) 360 : ℚ) : ℝ) * π / 180)) +
            (0.4 : ℝ))) := by
  simp only [tideRaw]
  ring

/-- Interval bound on the amplitude-times-wave form of `tideRaw`. -/
lemma amp_wave_le (c1 c2 c3 c4 : ℝ) (h1 : -1 ≤ c1) (h1' : c1 ≤ 1) (h2 : -1 ≤ c2)
    (h2' : c2 ≤ 1) (h3 : -1 ≤ c3) (h3' : c3 ≤ 1) (h4 : -1 ≤ c4) (h4' : c4 ≤ 1) :
    (2.1 : ℝ) + ((1.6 : ℝ) + (0.4 : ℝ) * c1) *
      (c2 + (0.18 : ℝ) * c3 + (0.06 : ℝ) * c4) ≤ (4.58 : ℝ) := by
  nlinarith [mul_le_mul_of_nonneg_left h2' (by linarith : (0:ℝ) ≤ 1.6 + 0.4 * c1),
    mul_le_mul_of_nonneg_left h3' (by linarith : (0:ℝ) ≤ 0.18 * (1.6 + 0.4 * c1)),
    mul_le_mul_of_nonneg_left h4' (by linarith : (0:ℝ) ≤ 0.06 * (1.6 + 0.4 * c1))]

/-- The simulator never exceeds `4.58` metres. -/
lemma tideRaw_le (dayOffset hour lat : ℚ) (doy : ℤ) :
    tideRaw dayOffset hour lat doy ≤ (4.58 : ℝ) := by
  rw [tideRaw_factor]
  exact amp_wave_le _ _ _ _ (Real.neg_one_le_cos _) (Real.cos_le_one _)
    (Real.neg_one_le_cos _) (Real.cos_le_one _) (Real.neg_one_le_cos _) (Real.cos_le_one _)
    (Real.neg_one_le_cos _) (Real.cos_le_one _)

/-- Rounding a simulator value to two decimals stays far below 100. -/
lemma toFixed2_lt_100 (x : ℝ) (hx : x ≤ (4.58 : ℝ)) : toFixed2 x < 100 := by
  unfold toFixed2
  have hfl : ⌊x * 100 + 1/2⌋ < (10000 : ℤ) := by
    apply Int.floor_lt.mpr
    push_cast
    nlinarith
  rw [div_lt_iff₀ (by norm_num : (0 : ℚ) < 100)]
  exact_mod_cast lt_of_lt_of_le (Int.cast_lt.mpr hfl) (by norm_num)

/-- C8 counterexample: `tideAt` answers from a memory-cache record whose date is six
years stale (returning its level 100), instead of evaluating the simulator — whose
rounded value is always below 100. -/
theorem C8_stale_cache_counterexample :
    c8Stale.date ≠ "2026-10-11" ∧
    tideAt (some c8Stale) [] "2026-10-11" 0 0 0 284 = 100 ∧
    toFixed2 (tideRaw 0 0 0 284) < 100 :=
  ⟨by decide, by decide, toFixed2_lt_100 _ (tideRaw_le 0 0 0 284)⟩

/-- C8 amended: the asynchronous resolution path (`cacheCovers`, `loadCache`) treats a
record dated other than today as a miss, but the synchronous `ensureCache` used by
`tideAt` performs no date check: any memory-cache record within 0.3° of the latitude is
returned regardless of its date. -/
theorem C8_date_scope_amended :
    (∀ (c : TideCache) (today : String) (lat lng : ℚ),
      c.date ≠ today → cacheCovers (some c) today lat lng = false) ∧
    (∀ (storage : ℚ × ℚ → Option TideCache) (today : String) (lat lng : ℚ) (c : TideCache),
      storage (gridKey lat lng) = some c → c.date ≠ today →
      loadCache storage today lat lng = none) ∧
    (∀ (c : TideCache) (seeds : List TideCache) (today : String) (lat : ℚ),
      |c.lat - lat| < (0.3 : ℚ) → ensureCache (some c) seeds today lat = some c) := by
  refine ⟨?_, ?_, ?_⟩
  · intro c today lat lng hd
    simp [cacheCovers, hd]
  · intro storage today lat lng c hs hd
    simp [loadCache, hs, hd]
  · intro c seeds today lat hlt
    simp [ensureCache, hlt]

/-- C8 amended witness on the concrete stale record. -/
theorem C8_date_scope_amended_witness :
    cacheCovers (some c8Stale) "2026-10-11" 0 0 = false ∧
    ensureCache (some c8Stale) [] "2026-10-11" 0 = some c8Stale :=
  ⟨C8_date_scope_amended.1 c8Stale "2026-10-11" 0 0 (by decide),
    C8_date_scope_amended.2.2 c8Stale [] "2026-10-11" 0 (by decide)⟩

/-- Evaluation of `tideRaw` at the latitude whose location phase vanishes. -/
lemma tideRaw_lat0 (doy : ℤ) :
    tideRaw 0 0 (-417/73 : ℚ) doy =
      (2.1 : ℝ) + ((1.6 : ℝ) + (0.4 : ℝ) * Real.cos ((doy : ℝ) / (14.76 : ℝ) * (2 * π))) *
        (1 + (0.18 : ℝ) * Real.cos ((0.8 : ℝ)) + (0.06 : ℝ) * Real.cos ((0.4 : ℝ))) := by
  rw [tideRaw_factor]
  rw [show jsMod ((-417/73 : ℚ) * (7.3 : ℚ) + (41.7 : ℚ)) 360 = 0 from by decide]
  push_cast
  norm_num [Real.cos_zero]

/-- The simulated tide at this location differs between ambient day-of-year 0 and 1. -/
lemma tideRaw_doy01 : tideRaw 0 0 (-417/73 : ℚ) 1 < tideRaw 0 0 (-417/73 : ℚ) 0 := by
  rw [tideRaw_lat0, tideRaw_lat0]
  push_cast
  rw [show (0 : ℝ) / (14.76 : ℝ) * (2 * π) = 0 by norm_num, Real.cos_zero]
  have hpi := Real.pi_pos
  have hc1lt : Real.cos ((1 : ℝ) / (14.76 : ℝ) * (2 * π)) < 1 := by
    have h := Real.cos_lt_cos_of_nonneg_of_le_pi (le_refl (0 : ℝ))
      (by nlinarith : (1 : ℝ) / (14.76 : ℝ) * (2 * π) ≤ π)
      (by positivity : (0 : ℝ) < (1 : ℝ) / (14.76 : ℝ) * (2 * π))
    simpa [Real.cos_zero] using h
  have hc1ge : -1 ≤ Real.cos ((1 : ℝ) / (14.76 : ℝ) * (2 * π)) := Real.neg_one_le_cos _
  have hc8a : -1 ≤ Real.cos ((0.8 : ℝ)) := Real.neg_one_le_cos _
  have hc8b : Real.cos ((0.8 : ℝ)) ≤ 1 := Real.cos_le_one _
  have hc4a : -1 ≤ Real.cos ((0.4 : ℝ)) := Real.neg_one_le_cos _
  have hc4b : Real.cos ((0.4 : ℝ)) ≤ 1 := Real.cos_le_one _
  have hF : (0 : ℝ) < 1 + (0.18 : ℝ) * Real.cos ((0.8 : ℝ)) + (0.06 : ℝ) * Real.cos ((0.4 : ℝ)) := by
    nlinarith
  nlinarith [mul_pos (show (0 : ℝ) < (0.4 : ℝ) * (1 - Real.cos ((1 : ℝ) / (14.76 : ℝ) * (2 * π)))
    by nlinarith) hF]

/-- C9 counterexample: two evaluations of `tideRaw` with identical `(dayOffset, hour,
lat)` arguments but different ambient days of year produce different outputs. -/
theorem C9_tideRaw_counterexample :
    tideRaw 0 0 (-417/73 : ℚ) 1 ≠ tideRaw 0 0 (-417/73 : ℚ) 0 :=
  ne_of_lt tideRaw_doy01

/-- C9 amended: `tideRaw` is a deterministic function of its three arguments AND the
ambient day of year read through `getDayOfYear()`; all date dependence enters through
the spring-neap amplitude factor, and the dependence is genuine: at a fixed
`(dayOffset, hour, lat)` the output varies with the ambient date. -/
theorem C9_tideRaw_determinism_amended :
    (∀ (dayOffset hour lat : ℚ) (doy : ℤ),
      tideRaw dayOffset hour lat doy =
        (2.1 : ℝ) +
          ((1.6 : ℝ) + (0.4 : ℝ) *
            Real.cos (((doy : ℝ) + (dayOffset : ℝ)) / (14.76 : ℝ) * (2 * π))) *
          (Real.cos ((hour : ℝ) / (12.42 : ℝ) * (2 * π) +
              ((dayOffset : ℝ) * LUNAR_SHIFT_RAD +
                ((jsMod (lat * (7.3 : ℚ) + (41.7 : ℚ)) 360 : ℚ) : ℝ) * π / 180)) +
            (0.18 : ℝ) * Real.cos ((hour : ℝ) / 24 * (2 * π) +
              ((dayOffset : ℝ) * LUNAR_SHIFT_RAD +
                ((jsMod (lat * (7.3 : ℚ) + (41.7 : ℚ)) 360 : ℚ) : ℝ) * π / 180) * (0.52 : ℝ) +
              (0.8 : ℝ)) +
            (0.06 : ℝ) * Real.cos (2 * ((hour : ℝ) / (12.42 : ℝ) * (2 * π) +
              ((dayOffset : ℝ) * LUNAR_SHIFT_RAD +
                ((jsMod (lat * (7.3 : ℚ) + (41.7 : ℚ)) 360 : ℚ) : ℝ) * π / 180)) +
              (0.4 : ℝ)))) ∧
    tideRaw 0 0 (-417/73 : ℚ) 1 < tideRaw 0 0 (-417/73 : ℚ) 0 :=
  ⟨tideRaw_factor, tideRaw_doy01⟩

/-! ### C4 -/

/-- The bracket scan finds nothing when the target lies before every extreme. -/
lemma findBracket_none_left (es : List CachedExtreme) (q : ℚ)
    (h : ∀ e ∈ es, q < e.absHour) : findBracket es q = none := by
  induction es with
  | nil => rfl
  | cons a tail ih =>
    cases tail with
    | nil => rfl
    | cons b rest =>
      unfold findBracket
      rw [if_neg]
      · exact ih fun e he => h e (List.mem_cons_of_mem a he)
      · rintro ⟨h1, _⟩
        exact absurd h1 (not_le.mpr (h a (List.mem_cons_self a _)))

/-- The bracket scan finds nothing when the target lies after every extreme. -/
lemma findBracket_none_right (es : List CachedExtreme) (q : ℚ)
    (h : ∀ e ∈ es, e.absHour < q) : findBracket es q = none := by
  induction es with
  | nil => rfl
  | cons a tail ih =>
    cases tail with
    | nil => rfl
    | cons b rest =>
      unfold findBracket
      rw [if_neg]
      · exact ih fun e he => h e (List.mem_cons_of_mem a he)
      · rintro ⟨_, h2⟩
        exact absurd h2 (not_le.mpr (h b (List.mem_cons_of_mem a (List.mem_cons_self b _))))

/-- The bracket scan returns the FIRST consecutive pair that brackets the target. -/
lemma findBracket_some (es : List CachedExtreme) (q : ℚ) :
    ∀ (i : ℕ) (a b : CachedExtreme), es[i]? = some a → es[i + 1]? = some b →
      a.absHour ≤ q → q ≤ b.absHour →
      (∀ (k : ℕ) (c d : CachedExtreme), k < i → es[k]? = some c → es[k + 1]? = some d →
        ¬(c.absHour ≤ q ∧ q ≤ d.absHour)) →
      findBracket es q = some (a, b) := by
  induction es with
  | nil =>
    intro i a b ha
    simp at ha
  | cons x tail ih =>
    intro i a b ha hb hq1 hq2 hmin
    cases tail with
    | nil =>
      rw [List.getElem?_cons_succ] at hb
      simp at hb
    | cons y rest =>
      cases i with
      | zero =>
        rw [List.getElem?_cons_zero] at ha
        rw [List.getElem?_cons_succ, List.getElem?_cons_zero] at hb
        obtain rfl := Option.some_inj.mp ha
        obtain rfl := Option.some_inj.mp hb
        unfold findBracket
        rw [if_pos ⟨hq1, hq2⟩]
      | succ i =>
        have hnb := hmin 0 x y (Nat.succ_pos i) (by simp) (by simp)
        unfold findBracket
        rw [if_neg hnb]
        rw [List.getElem?_cons_succ] at ha hb
        apply ih i a b ha hb hq1 hq2
        intro k c d hk hk1 hk2
        exact hmin (k + 1) c d (by omega) (by simpa using hk1) (by simpa using hk2)

/-- In a sorted extremes list every element's hour is bounded by the last one's. -/
lemma mem_le_getLastD (es : List CachedExtreme)
    (hp : es.Pairwise (fun a b => a.absHour < b.absHour)) :
    ∀ e ∈ es, e.absHour ≤ (es.getLastD default).absHour := by
  induction es with
  | nil => simp
  | cons x tail ih =>
    obtain ⟨hx, hp'⟩ := List.pairwise_cons.mp hp
    intro e he
    cases tail with
    | nil =>
      simp only [List.mem_singleton] at he
      subst he
      simp [List.getLastD]
    | cons y rest =>
      rw [List.getLastD_cons]
      have hylast : (y :: rest).getLastD x = (y :: rest).getLastD default := by
        rw [List.getLastD_cons, List.getLastD_cons]
      rw [hylast]
      rcases List.mem_cons.mp he with rfl | he'
      · have hy := ih hp' y (List.mem_cons_self y rest)
        exact le_trans (le_of_lt (hx y (List.mem_cons_self y rest))) hy
      · exact ih hp' e he'

/-- In a sorted extremes list the head's hour bounds every element's from below. -/
lemma headI_le_mem (es : List CachedExtreme)
    (hp : es.Pairwise (fun a b => a.absHour < b.absHour)) :
    ∀ e ∈ es, es.headI.absHour ≤ e.absHour := by
  cases es with
  | nil => simp
  | cons x tail =>
    obtain ⟨hx, _⟩ := List.pairwise_cons.mp hp
    intro e he
    rcases List.mem_cons.mp he with rfl | he'
    · simp [List.headI]
    · exact le_of_lt (hx e he')

/-- In a sorted list with at least two extremes, the head strictly precedes the last. -/
lemma headI_lt_getLastD (es : List CachedExtreme)
    (hp : es.Pairwise (fun a b => a.absHour < b.absHour)) (h2 : 2 ≤ es.length) :
    es.headI.absHour < (es.getLastD default).absHour := by
  cases es with
  | nil => simp at h2
  | cons x tail =>
    cases tail with
    | nil => simp at h2
    | cons y rest =>
      obtain ⟨hx, hp'⟩ := List.pairwise_cons.mp hp
      have hy := mem_le_getLastD (y :: rest) hp' y (List.mem_cons_self y rest)
      rw [List.getLastD_cons]
      have hylast : (y :: rest).getLastD x = (y :: rest).getLastD default := by
        rw [List.getLastD_cons, List.getLastD_cons]
      rw [hylast]
      exact lt_of_lt_of_le (hx y (List.mem_cons_self y rest)) hy

/-- Evaluation of one interpolation step once the bracket and its positive span are
known. -/
lemma interpOne_eval (es : List CachedExtreme) (q : ℚ) (a b : CachedExtreme)
    (hbr : findBracket es q = some (a, b)) (hspan : 0 < b.absHour - a.absHour) :
    interpOne es q = ⟨q, toFixed2 ((a.level : ℝ) +
      ((b.level : ℝ) - (a.level : ℝ)) *
      ((1 - Real.cos ((((q - a.absHour) / (b.absHour - a.absHour) : ℚ) : ℝ) * π)) / 2))⟩ := by
  simp only [interpOne, hbr, Option.getD_some]
  rw [if_neg (not_le.mpr hspan)]

/-- Evaluation of one interpolation step when the scan fails and the default
head/last bracket with positive span applies. -/
lemma interpOne_eval_default (es : List CachedExtreme) (q : ℚ)
    (hbr : findBracket es q = none)
    (hspan : 0 < (es.getLastD default).absHour - es.headI.absHour) :
    interpOne es q = ⟨q, toFixed2 ((es.headI.level : ℝ) +
      (((es.getLastD default).level : ℝ) - (es.headI.level : ℝ)) *
      ((1 - Real.cos ((((q - es.headI.absHour) /
        ((es.getLastD default).absHour - es.headI.absHour) : ℚ) : ℝ) * π)) / 2))⟩ := by
  simp only [interpOne, hbr, Option.getD_none]
  rw [if_neg (not_le.mpr hspan)]

/-- C4 amended: fewer than two extremes yield an empty output; for a chronologically
sorted list the output has one entry per hour of the 7-day window (hour `n` at index
`n`); an hour outside the extremes' range is NOT clamped — the raised-cosine formula is
evaluated between the first and last extremes with the fractional position outside
`[0, 1]` — and a bracketed hour is interpolated with the raised-cosine ease on its
first bracketing pair, rounded to two decimals. -/
theorem C4_interpolation_amended (extremes : List CachedExtreme) :
    (extremes.length < 2 → interpolateFromExtremes extremes = []) ∧
    (extremes.Pairwise (fun a b => a.absHour < b.absHour) → 2 ≤ extremes.length →
      ((interpolateFromExtremes extremes).length = 168 ∧
      (∀ n : ℕ, n < 168 →
        (interpolateFromExtremes extremes)[n]? = some (interpOne extremes (n : ℚ))) ∧
      (∀ q : ℚ, (q < extremes.headI.absHour ∨ (extremes.getLastD default).absHour < q) →
        interpOne extremes q = ⟨q, toFixed2 ((extremes.headI.level : ℝ) +
          (((extremes.getLastD default).level : ℝ) - (extremes.headI.level : ℝ)) *
          ((1 - Real.cos ((((q - extremes.headI.absHour) /
            ((extremes.getLastD default).absHour - extremes.headI.absHour) : ℚ) : ℝ) * π)) /
            2))⟩) ∧
      (∀ (q : ℚ) (i : ℕ) (a b : CachedExtreme), extremes[i]? = some a →
        extremes[i + 1]? = some b → a.absHour ≤ q → q ≤ b.absHour →
        (∀ (k : ℕ) (c d : CachedExtreme), k < i → extremes[k]? = some c →
          extremes[k + 1]? = some d → ¬(c.absHour ≤ q ∧ q ≤ d.absHour)) →
        interpOne extremes q = ⟨q, toFixed2 ((a.level : ℝ) +
          ((b.level : ℝ) - (a.level : ℝ)) *
          ((1 - Real.cos ((((q - a.absHour) / (b.absHour - a.absHour) : ℚ) : ℝ) * π)) /
            2))⟩))) := by
  constructor
  · intro hlt
    simp [interpolateFromExtremes, hlt]
  · intro hp h2
    refine ⟨?_, ?_, ?_, ?_⟩
    · simp only [interpolateFromExtremes]
      rw [if_neg (by omega : ¬ extremes.length < 2)]
      simp
    · intro n hn
      simp only [interpolateFromExtremes]
      rw [if_neg (by omega : ¬ extremes.length < 2)]
      rw [List.getElem?_map, List.getElem?_range hn]
      rfl
    · intro q hq
      have hspan := headI_lt_getLastD extremes hp h2
      have hbr : findBracket extremes q = none := by
        rcases hq with hql | hqr
        · exact findBracket_none_left extremes q fun e he =>
            lt_of_lt_of_le hql (headI_le_mem extremes hp e he)
        · exact findBracket_none_right extremes q fun e he =>
            lt_of_le_of_lt (mem_le_getLastD extremes hp e he) hqr
      exact interpOne_eval_default extremes q hbr (by linarith)
    · intro q i a b ha hb hq1 hq2 hmin
      have hbr := findBracket_some extremes q i a b ha hb hq1 hq2 hmin
      have hilt : i < extremes.length := (List.getElem?_eq_some.mp ha).1
      have hilt1 : i + 1 < extremes.length := (List.getElem?_eq_some.mp hb).1
      have hab : a.absHour < b.absHour := by
        have hpg := List.pairwise_iff_get.mp hp ⟨i, hilt⟩ ⟨i + 1, hilt1⟩ (by simp)
        have hga : extremes.get ⟨i, hilt⟩ = a := by
          have := (List.getElem?_eq_some.mp ha).2
          simpa [List.get_eq_getElem] using this
        have hgb : extremes.get ⟨i + 1, hilt1⟩ = b := by
          have := (List.getElem?_eq_some.mp hb).2
          simpa [List.get_eq_getElem] using this
        rwa [hga, hgb] at hpg
      exact interpOne_eval extremes q a b hbr (by linarith)

/-- The interpolated sea level of the scenario extremes at hour 0 (before the first
extreme): the cosine formula is extrapolated with `t = -1/3`, giving 1.5, not the
clamped boundary level 1.0. -/
lemma interp_c4_at0 : (interpolateFromExtremes c4Extremes)[0]? = some ⟨0, 3/2⟩ := by
  simp only [interpolateFromExtremes]
  rw [if_neg (by decide)]
  rw [List.getElem?_map, List.getElem?_range (by norm_num : 0 < 7 * 24)]
  rw [Option.map_some']
  rw [show ((0 : ℕ) : ℚ) = 0 from by norm_num]
  rw [interpOne_eval_default c4Extremes 0 (by decide) (by decide)]
  simp only [c4Extremes, List.headI, List.getLastD_cons, List.getLastD]
  norm_num
  rw [show ((1 : ℝ)/3) * π = π/3 by ring, Real.cos_pi_div_three]
  norm_num [toFixed2, Int.floor_eq_iff]

/-- The interpolated sea level of the rounding extremes at hour 1: the exact cosine
value `1/40 = 0.025` is rounded to two decimals, giving `0.03`. -/
lemma interp_c4R_at1 : (interpolateFromExtremes c4Rounding)[1]? = some ⟨1, 3/100⟩ := by
  simp only [interpolateFromExtremes]
  rw [if_neg (by decide)]
  rw [List.getElem?_map, List.getElem?_range (by norm_num : 1 < 7 * 24)]
  rw [Option.map_some']
  rw [show ((1 : ℕ) : ℚ) = 1 from by norm_num]
  rw [interpOne_eval c4Rounding 1 ⟨0, 0, TideType.low⟩ ⟨3, 1/10, TideType.high⟩
    (by decide) (by decide)]
  norm_num
  rw [show ((1 : ℝ)/3) * π = π/3 by ring, Real.cos_pi_div_three]
  norm_num [toFixed2, Int.floor_eq_iff]

/-- The interpolated sea level of the scenario extremes at hour 5: `t = 1/2`, level 2. -/
lemma interp_c4_at5 : (interpolateFromExtremes c4Extremes)[5]? = some ⟨5, 2⟩ := by
  simp only [interpolateFromExtremes]
  rw [if_neg (by decide)]
  rw [List.getElem?_map, List.getElem?_range (by norm_num : 5 < 7 * 24)]
  rw [Option.map_some']
  rw [show ((5 : ℕ) : ℚ) = 5 from by norm_num]
  rw [interpOne_eval c4Extremes 5 ⟨2, 1, TideType.low⟩ ⟨8, 3, TideType.high⟩
    (by decide) (by decide)]
  norm_num
  rw [show ((1 : ℝ)/2) * π = π/2 by ring, Real.cos_pi_div_two]
  norm_num [toFixed2, Int.floor_eq_iff]

/-- C4 counterexample: at hour 0, before the first extreme of the scenario list, the
code returns 1.5 (cosine extrapolation), not the clamped boundary level 1.0; and at
hour 1 of the rounding list it returns 0.03, not the claimed exact formula value
0.025. -/
theorem C4_interpolation_counterexample :
    (interpolateFromExtremes c4Extremes)[0]? = some ⟨0, 3/2⟩ ∧
    (3/2 : ℚ) ≠ 1 ∧
    (interpolateFromExtremes c4Rounding)[1]? = some ⟨1, 3/100⟩ ∧
    (3/100 : ℚ) ≠ 1/40 :=
  ⟨interp_c4_at0, by norm_num, interp_c4R_at1, by norm_num⟩

/-- C4 amended witness: the full characterization at the scenario extremes, plus the
spec's hour-5 scenario value 2.0. -/
theorem C4_interpolation_amended_witness :
    ((interpolateFromExtremes c4Extremes).length = 168 ∧
    (∀ n : ℕ, n < 168 →
      (interpolateFromExtremes c4Extremes)[n]? = some (interpOne c4Extremes (n : ℚ))) ∧
    (∀ q : ℚ, (q < c4Extremes.headI.absHour ∨ (c4Extremes.getLastD default).absHour < q) →
      interpOne c4Extremes q = ⟨q, toFixed2 ((c4Extremes.headI.level : ℝ) +
        (((c4Extremes.getLastD default).level : ℝ) - (c4Extremes.headI.level : ℝ)) *
        ((1 - Real.cos ((((q - c4Extremes.headI.absHour) /
          ((c4Extremes.getLastD default).absHour - c4Extremes.headI.absHour) : ℚ) : ℝ) * π)) /
          2))⟩) ∧
    (∀ (q : ℚ) (i : ℕ) (a b : CachedExtreme), c4Extremes[i]? = some a →
      c4Extremes[i + 1]? = some b → a.absHour ≤ q → q ≤ b.absHour →
      (∀ (k : ℕ) (c d : CachedExtreme), k < i → c4Extremes[k]? = some c →
        c4Extremes[k + 1]? = some d → ¬(c.absHour ≤ q ∧ q ≤ d.absHour)) →
      interpOne c4Extremes q = ⟨q, toFixed2 ((a.level : ℝ) +
        ((b.level : ℝ) - (a.level : ℝ)) *
        ((1 - Real.cos ((((q - a.absHour) / (b.absHour - a.absHour) : ℚ) : ℝ) * π)) /
          2))⟩)) ∧
    (interpolateFromExtremes c4Extremes)[5]? = some ⟨5, 2⟩ :=
  ⟨(C4_interpolation_amended c4Extremes).2 (by decide) (by decide), interp_c4_at5⟩

end KiteForecast

